import Mathlib

/-!
Shallow embedding of the synthetic-data simulator and realism validator of the
revenue-forecasting platform (directory `forecasting/sim/src`), together with
proofs about the claims of its specification.

Modeling conventions, used consistently below:
* Python ints are `ℤ` (or `ℕ` where the source value is a count), Python floats
  are `ℝ`, computed exactly.
* Calendar dates are month indices into `calendar_dates` (the calendar is a
  strictly increasing sequence of month starts, so date comparison and
  month-offset arithmetic coincide with index comparison and addition).
* The `numpy.random.Generator` handle is a stateful stream of draws: a function
  `ℕ → ℝ` plus a cursor.  Each primitive draw consumes one stream value, in the
  exact order the source performs the draws.  A `random()`/`uniform` draw uses
  the stream value as the uniform variate; a `normal` draw uses the stream value
  directly as the realized (unbounded) noise value; a `choice` over a finite
  list turns the stream value into an index, clamped so that — like numpy's
  `choice` — it always returns an element of the list.
-/

set_option maxHeartbeats 1600000
set_option maxRecDepth 16000

namespace RevSim

noncomputable section

open scoped Classical

/-- Explicit pseudo-random source threaded through every generator call,
mirroring the `rng : np.random.Generator` parameter of the source. -/
structure Rng where
  stream : ℕ → ℝ
  pos : ℕ

/-- Consume one draw from the stream (one call of `rng.random()` or one
realized `rng.normal`/`rng.uniform` variate). -/
def Rng.next (r : Rng) : ℝ × Rng :=
  (r.stream r.pos, ⟨r.stream, r.pos + 1⟩)

/-- Draw of `rng.uniform(a, b)`: the uniform variate scaled into `[a, b]`. -/
def Rng.uniformIn (r : Rng) (a b : ℝ) : ℝ × Rng :=
  let p := r.next
  (a + (b - a) * p.1, p.2)

/-- Python `int(x)`: truncation toward zero. -/
def pyInt (x : ℝ) : ℤ :=
  if 0 ≤ x then ⌊x⌋ else -⌊-x⌋

/-- Index drawn from a uniform variate for a choice among `n` alternatives,
clamped into range like numpy's `choice` (which always returns an element). -/
def chooseIdx (n : ℕ) (u : ℝ) : ℕ :=
  min (n - 1) (Int.toNat ⌊u * n⌋)

/-- Model of `rng.choice(l)`: pick the element indexed by the drawn variate
(`d` is a dummy default for the empty list, on which numpy raises). -/
def chooseFrom {α : Type} (l : List α) (d : α) (u : ℝ) : α :=
  l.getD (chooseIdx l.length u) d

/-- Stateful form of `rng.choice(l)`. -/
def Rng.chooseL {α : Type} (r : Rng) (l : List α) (d : α) : α × Rng :=
  let p := r.next
  (chooseFrom l d p.1, p.2)

/-- Model of `np.clip(x, lo, hi)` on floats. -/
def npClip (x lo hi : ℝ) : ℝ :=
  min hi (max lo x)

/-- Model of `np.clip(z, lo, hi)` on integers. -/
def npClipInt (z lo hi : ℤ) : ℤ :=
  min hi (max lo z)

/-- Model of `np.round`: round half to even (banker's rounding), as numpy does. -/
def npRound (x : ℝ) : ℤ :=
  if Int.fract x = 1 / 2 then (if 2 ∣ ⌊x⌋ then ⌊x⌋ else ⌊x⌋ + 1) else round x

/-! ### Validator: annualized churn formula

From `validate_simulation.py`, `_annualized_churn` (lines 116-117 and 130):
`annualized = (n_churned / n_at_risk) * (12 / max(1, period_months / 12))`,
where `period_months` is the number of columns of the reconstructed
customer-by-month ARR matrix.  All quantities are exact here (counts and a
division by 12), so `ℚ` models the float computation faithfully. -/

/-- Annualized churn rate exactly as the validator computes it (both the
overall rate at line 117 and each per-segment rate at line 130). -/
def annualized_churn_rate (n_churned n_at_risk period_months : ℕ) : ℚ :=
  ((n_churned : ℚ) / (n_at_risk : ℚ)) * (12 / max 1 ((period_months : ℚ) / 12))

/-- Annualized churn rate as the specification words it:
`(churned / at_risk) · (12 / observed_months)`. -/
def spec_annualized_churn_rate (n_churned n_at_risk observed_months : ℕ) : ℚ :=
  ((n_churned : ℚ) / (n_at_risk : ℚ)) * (12 / (observed_months : ℚ))

/-- Per-segment churn band check of the validator (lines 131-134): the rate
must lie within ±35% relative of the configured target. -/
def churn_band_ok (rate target : ℚ) : Prop :=
  target * (1 - 35 / 100) ≤ rate ∧ rate ≤ target * (1 + 35 / 100)

/-! ### Validator: aggregation of the five checks

From `validate_simulation.py`, `run_validation` (lines 242-311).  Each check
returns a pair `(ok, errs)`; the harness prints one section per check, extends
`all_fails` inside the per-message loop (so `errs` is appended once per
message), never consults the boolean, and exits 1 iff `all_fails` is
nonempty.  The five checks are modeled by their results, universally
quantified, which covers every input set of loaded tables and config. -/

/-- Result of one validator check: the `(ok, fails)` pair each `_*` check
function returns. -/
structure CheckResult where
  ok : Bool
  errs : List String

/-- Accumulation of one check's messages into `all_fails`, exactly as the
source does it: `for e in errs: ...; all_fails.extend(errs)` — the whole list
is appended once per message. -/
def extend_fails (acc : List String) (errs : List String) : List String :=
  errs.foldl (fun a _ => a ++ errs) acc

/-- Straight-line body of `run_validation` after the five tables are loaded:
all five checks contribute a printed section unconditionally, and the exit
code is 1 iff the accumulated failure list is nonempty.  Returns
(exit code, one report section per check). -/
def run_validation (seg churn conc pipe usage : CheckResult) : ℕ × List (String × List String) :=
  let all_fails := extend_fails (extend_fails (extend_fails (extend_fails
      (extend_fails [] seg.errs) churn.errs) conc.errs) pipe.errs) usage.errs
  let report := [("Segment distribution", seg.errs), ("Churn by segment", churn.errs),
    ("Revenue concentration", conc.errs), ("Pipeline", pipe.errs), ("Usage", usage.errs)]
  (if all_fails.isEmpty then 0 else 1, report)

/-! ### Contract generator: per-renewal churn probability

From `gen_subscriptions.py`, `_annual_to_per_renewal` (lines 21-25) and the
renewal roll (lines 134-136). -/

/-- Per-renewal churn probability from the annual target, exactly as
`_annual_to_per_renewal` computes it: `1 - (1 - c) ** (1 / (12 / t))`. -/
def annual_to_per_renewal (annual_churn : ℝ) (term_months : ℤ) : ℝ :=
  if term_months ≤ 0 then 0
  else 1 - Real.rpow (1 - annual_churn) (1 / (12 / (term_months : ℝ)))

/-- Effective churn probability at a renewal boundary (lines 135-136):
`np.clip(base * (1.2 - h) + noise, 0.02, 0.95)`. -/
def effective_churn_prob (base_churn h noise : ℝ) : ℝ :=
  npClip (base_churn * (1.2 - h) + noise) 0.02 0.95

/-! ### Configuration

Model of the configuration dictionary after the `.get(key, default)` reads the
generators perform: each block holds the resolved value (the source's default
when the key is absent). -/

/-- Behavior block for a segment group (`enterprise_large_behavior` /
`mid_smb_behavior`). -/
structure BehaviorCfg where
  contract_term_months : List ℤ
  onboarding_lag_months : List ℤ

/-- Pipeline block of the configuration. -/
structure PipelineCfg where
  opps_per_month_per_100_customers : ℝ
  stage_names : List String
  slippage_enterprise : List (String × ℤ)
  slippage_mid_smb : List (String × ℤ)

/-- Usage block of the configuration. -/
structure UsageCfg where
  features : List String
  noise_std : ℝ
  contradictory_signal_rate : ℝ

/-- Simulation configuration, with every key the generators read. -/
structure SimConfig where
  random_seed : ℕ
  months : ℕ
  n_customers_total : ℕ
  segment_mix : List (String × ℝ)
  churn_targets_by_segment : List (String × ℝ)
  enterprise_large_behavior : BehaviorCfg
  mid_smb_behavior : BehaviorCfg
  pipeline : PipelineCfg
  usage : UsageCfg

/-- Dictionary lookup with default, modeling Python's `dict.get(k, d)`. -/
def lookupD {β : Type} (l : List (String × β)) (k : String) (d : β) : β :=
  ((l.find? (fun p => p.1 == k)).map Prod.snd).getD d

/-! ### Customer generator

From `gen_customers.py`, `generate_customers`.  The source performs vectorized
draws in blocks of `n` (or, for the inversion values, of the number of
contradicted customers); we give each vectorized call its own block of stream
positions, indexed by customer, in the order the source performs the calls:
segments, created months, latent_health, price_sensitivity,
expansion_propensity, onboarding (enterprise/large block then mid/smb block),
CRM Gaussian noise, contradiction coins, inversion low values, inversion high
values, regions, industries. -/

def SEGMENTS : List String := ["enterprise", "large", "medium", "smb"]

def REGIONS : List String := ["US", "EU", "DACH", "APAC"]

def INDUSTRIES : List String :=
  ["Technology", "Finance", "Healthcare", "Retail", "Manufacturing", "Other"]

/-- Categorical draw by inverse transform: the index whose cumulative
probability first exceeds the variate. -/
def catIdx : List ℝ → ℝ → ℕ
  | [], _ => 0
  | p :: ps, u => if u < p then 0 else 1 + catIdx ps (u - p)

/-- Normalized segment-mix probabilities: `[mix.get(s, 0.25) for s in SEGMENTS]`
divided by their sum. -/
def mixProbs (mix : List (String × ℝ)) : List ℝ :=
  let raw := SEGMENTS.map (fun sg => lookupD mix sg 0.25)
  raw.map (fun p => p / raw.sum)

/-- Segment of customer `i`: categorical draw over the normalized mix. -/
def cust_segment (cfg : SimConfig) (r : Rng) (i : ℕ) : String :=
  SEGMENTS.getD (catIdx (mixProbs cfg.segment_mix) (r.stream (r.pos + i))) ("smb")

/-- Creation month index of customer `i`: `rng.choice(len(calendar_months))`. -/
def cust_created (cfg : SimConfig) (r : Rng) (i : ℕ) : ℤ :=
  ⌊r.stream (r.pos + cfg.n_customers_total + i) * (cfg.months : ℝ)⌋

/-- Latent health of customer `i`: `rng.uniform(0.2, 0.95)`. -/
def cust_latent_health (cfg : SimConfig) (r : Rng) (i : ℕ) : ℝ :=
  0.2 + (0.95 - 0.2) * r.stream (r.pos + 2 * cfg.n_customers_total + i)

/-- Price sensitivity of customer `i`: `rng.uniform(0, 1)`. -/
def cust_price_sensitivity (cfg : SimConfig) (r : Rng) (i : ℕ) : ℝ :=
  r.stream (r.pos + 3 * cfg.n_customers_total + i)

/-- Expansion propensity of customer `i`: `rng.uniform(0, 1)`. -/
def cust_expansion_propensity (cfg : SimConfig) (r : Rng) (i : ℕ) : ℝ :=
  r.stream (r.pos + 4 * cfg.n_customers_total + i)

/-- Onboarding complexity of customer `i`: `np.where(isin(enterprise, large),
uniform(0.4, 0.9), uniform(0.1, 0.5))` — both blocks are drawn, the segment
selects which one is kept. -/
def cust_onboarding (cfg : SimConfig) (r : Rng) (i : ℕ) : ℝ :=
  if cust_segment cfg r i = "enterprise" ∨ cust_segment cfg r i = "large" then
    0.4 + (0.9 - 0.4) * r.stream (r.pos + 5 * cfg.n_customers_total + i)
  else
    0.1 + (0.5 - 0.1) * r.stream (r.pos + 6 * cfg.n_customers_total + i)

/-- Realized Gaussian CRM noise of customer `i` (`rng.normal(0, 0.8)`): the
stream value is the realized standard-normal variate, unconstrained, scaled by
the source's standard deviation 0.8. -/
def cust_crm_noise (cfg : SimConfig) (r : Rng) (i : ℕ) : ℝ :=
  0.8 * r.stream (r.pos + 7 * cfg.n_customers_total + i)

/-- Non-contradicted CRM health: `np.clip(np.round(latent * 9 + 1 + noise)
.astype(int), 1, 10)` (the `astype` truncation is the identity on the
integer-valued rounded float). -/
def cust_crm_base (cfg : SimConfig) (r : Rng) (i : ℕ) : ℤ :=
  npClipInt (npRound (cust_latent_health cfg r i * 9 + 1 + cust_crm_noise cfg r i)) 1 10

/-- Contradiction coin of customer `i`: `rng.random() < contradictory_rate`. -/
def cust_contradicted (cfg : SimConfig) (r : Rng) (i : ℕ) : Prop :=
  r.stream (r.pos + 8 * cfg.n_customers_total + i) < cfg.usage.contradictory_signal_rate

/-- Observed CRM health of customer `i`: the inversion branch replaces the
value for contradicted customers (`integers(1, 4)` when latent ≥ 0.5, else
`integers(7, 11)`). -/
def cust_crm (cfg : SimConfig) (r : Rng) (i : ℕ) : ℤ :=
  if cust_contradicted cfg r i then
    (if 0.5 ≤ cust_latent_health cfg r i then
      1 + ⌊r.stream (r.pos + 9 * cfg.n_customers_total + i) * 3⌋
    else
      7 + ⌊r.stream (r.pos + 10 * cfg.n_customers_total + i) * 4⌋)
  else cust_crm_base cfg r i

/-- Row of the persisted `customers` table. -/
structure CustomerRow where
  customer_id : ℕ
  segment : String
  region : String
  industry : String
  crm_health_input : ℤ
  created_idx : ℤ

/-- Ephemeral latent traits, returned alongside the customer table and reused
by every downstream generator of the same run. -/
structure Latents where
  latent_health : ℕ → ℝ
  price_sensitivity : ℕ → ℝ
  expansion_propensity : ℕ → ℝ
  onboarding_complexity : ℕ → ℝ
  created_month_index : ℕ → ℤ

/-- Customer generator: the customers table, the latents, and the advanced
random source (thirteen draw blocks of `n` were consumed). -/
def generate_customers (cfg : SimConfig) (r : Rng) : List CustomerRow × Latents × Rng :=
  let n := cfg.n_customers_total
  let rows := (List.range n).map (fun i =>
    ({ customer_id := i + 1
       segment := cust_segment cfg r i
       region := chooseFrom REGIONS ("US") (r.stream (r.pos + 11 * n + i))
       industry := chooseFrom INDUSTRIES ("Other") (r.stream (r.pos + 12 * n + i))
       crm_health_input := cust_crm cfg r i
       created_idx := cust_created cfg r i } : CustomerRow))
  let lat : Latents :=
    { latent_health := cust_latent_health cfg r
      price_sensitivity := cust_price_sensitivity cfg r
      expansion_propensity := cust_expansion_propensity cfg r
      onboarding_complexity := cust_onboarding cfg r
      created_month_index := cust_created cfg r }
  (rows, lat, ⟨r.stream, r.pos + 13 * n⟩)

/-! ### Product generator

From `gen_products.py`, `generate_products`: four recurring products (families
a, b, c, d), each with a term drawn from `{12, 24}`, plus one non-recurring
add-on for family d.  Product ids `p1..p5` are modeled by their numbers. -/

/-- Row of the persisted `products` table. -/
structure ProductRow where
  product_id : ℕ
  product_family : String
  is_recurring : Bool
  default_term_months : ℤ

/-- Product generator: one term-choice draw per family, in family order. -/
def generate_products (r : Rng) : List ProductRow × Rng :=
  let term : ℕ → ℤ := fun k => chooseFrom [12, 24] 12 (r.stream (r.pos + k))
  ([⟨1, "a", true, term 0⟩, ⟨2, "b", true, term 1⟩, ⟨3, "c", true, term 2⟩,
    ⟨4, "d", true, term 3⟩, ⟨5, "d", false, 12⟩], ⟨r.stream, r.pos + 4⟩)

/-! ### Contract (subscription) generator

From `gen_subscriptions.py`, `generate_subscriptions` (lines 28-153).  Contract
rows carry calendar month indices for their start/end dates.  The renewal loop
is structurally recursive on a fuel argument; `months` units of fuel are enough
for every positive term length, matching the source loop which advances
`start_idx` by `term_months ≥ 1` each iteration. -/

/-- Row of the persisted `subscription_line_items` table (dates as calendar
month indices). -/
structure SubRow where
  contract_id : ℕ
  customer_id : ℕ
  product_id : ℕ
  start_idx : ℤ
  end_idx : ℤ
  billing_frequency : String
  quantity : ℤ
  unit_price : ℝ
  discount_pct : ℝ
  status : String

/-- Segment-group behavior lookup of `_segment_behavior` (lines 13-18). -/
def segment_behavior (cfg : SimConfig) (seg : String) : BehaviorCfg :=
  if seg = "enterprise" ∨ seg = "large" then cfg.enterprise_large_behavior
  else cfg.mid_smb_behavior

/-- Python `round(x, 3)` (banker's rounding at 3 decimals). -/
def pyRound3 (x : ℝ) : ℝ :=
  (npRound (x * 1000) : ℝ) / 1000

/-- Python `round(x, 2)` (banker's rounding at 2 decimals). -/
def pyRound2 (x : ℝ) : ℝ :=
  (npRound (x * 100) : ℝ) / 100

/-- Segment-dependent quantity/price draw (`qty_price`, lines 64-78): one
uniform variate skewed by a power, truncated, floored at 1. -/
def qty_price (seg : String) (u : ℝ) : ℤ × ℝ :=
  if seg = "enterprise" then
    (max 1 (pyInt (50 + 450 * Real.rpow u 0.4)), max 1 (200 + 1800 * Real.rpow u 0.5))
  else if seg = "large" then
    (max 1 (pyInt (20 + 180 * Real.rpow u 0.45)), max 1 (100 + 700 * Real.rpow u 0.5))
  else if seg = "medium" then
    (max 1 (pyInt (5 + 45 * Real.rpow u 0.5)), max 1 (30 + 170 * Real.rpow u 0.5))
  else
    (max 1 (pyInt (1 + 19 * Real.rpow u 0.6)), max 1 (10 + 70 * Real.rpow u 0.5))

/-- Segment-dependent discount draw (`discount`, lines 80-85). -/
def discount_draw (seg : String) (u : ℝ) : ℝ :=
  if seg = "enterprise" ∨ seg = "large" then pyRound3 (0.05 + (0.25 - 0.05) * u)
  else if seg = "medium" then pyRound3 ((0.12 - 0) * u)
  else pyRound3 ((0.05 - 0) * u)

/-- Insertion of a string into a sorted list (helper for the sorted distinct
family keys that `groupby` produces). -/
def insertSorted (x : String) : List String → List String
  | [] => [x]
  | y :: ys => if x ≤ y then x :: y :: ys else y :: insertSorted x ys

/-- Distinct family keys in sorted order, as `groupby("product_family")`
enumerates them. -/
def sortedFamilies (l : List String) : List String :=
  l.eraseDups.foldr insertSorted []

/-- Sampling of `k` distinct indices without replacement
(`rng.choice(n, size=k, replace=False)`): successive clamped draws from the
remaining pool. -/
def sampleIdx (avail : List ℕ) (k : ℕ) (r : Rng) : List ℕ × Rng :=
  if _hk : k = 0 then ([], r)
  else
    let p := r.next
    let j := chooseIdx avail.length p.1
    let rest := sampleIdx (avail.eraseIdx j) (k - 1) p.2
    ((avail.getD j 0) :: rest.1, rest.2)
termination_by k
decreasing_by omega

/-- Renewal/churn loop of one customer (lines 107-150).  Emits one row per
chosen product for the current term; at the term boundary either cancels the
just-emitted block and stops, or renews with possible quantity expansion or
contraction and a price reduction.  Returns the rows, the updated contract
counter and the advanced random source. -/
def contract_loop (months term : ℤ) (custId : ℕ) (pids : List ℕ) (seg : String)
    (h expProp priceSens baseChurn : ℝ) (fuel : ℕ) (start_idx qty : ℤ)
    (price disc : ℝ) (billing : String) (counter : ℕ) (r : Rng) :
    List SubRow × ℕ × Rng :=
  if _hfu : fuel = 0 then ([], counter, r) else
    if months ≤ start_idx then ([], counter, r) else
    let end_idx := start_idx + term
    let end_month_idx := min end_idx months - 1
    let cid := counter + 1
    let block := pids.map (fun pid =>
      ({ contract_id := cid, customer_id := custId, product_id := pid,
         start_idx := start_idx, end_idx := end_month_idx,
         billing_frequency := billing, quantity := qty, unit_price := price,
         discount_pct := disc, status := "active" } : SubRow))
    if months < end_idx then (block, cid, r) else
    let pNoise := r.uniformIn (-0.05) 0.08
    let churn_prob := effective_churn_prob baseChurn h pNoise.1
    let pChurn := pNoise.2.next
    if pChurn.1 < churn_prob then
      (block.map (fun row => { row with status := "cancelled" }), cid, pChurn.2)
    else
      let pExp := pChurn.2.next
      let afterQty :=
        if pExp.1 < 0.35 * expProp then
          let pU := pExp.2.uniformIn 1.05 1.35
          (min (pyInt ((qty : ℝ) * pU.1)) 2000, pU.2)
        else
          let pContr := pExp.2.next
          if pContr.1 < 0.2 then
            let pU := pContr.2.uniformIn 0.85 1.0
            (max 1 (pyInt ((qty : ℝ) * pU.1)), pU.2)
          else (qty, pContr.2)
      let pPrice := afterQty.2.next
      let afterPrice :=
        if pPrice.1 < 0.25 * priceSens then
          let pU := pPrice.2.uniformIn 0.95 1.0
          (pyRound2 (price * pU.1), pU.2)
        else (price, pPrice.2)
      let pDisc := afterPrice.2.next
      let rest := contract_loop months term custId pids seg h expProp priceSens baseChurn
        (fuel - 1) end_idx afterQty.1 afterPrice.1 (discount_draw seg pDisc.1) billing cid pDisc.2
      (block ++ rest.1, rest.2)
termination_by fuel
decreasing_by omega

/-- Per-customer preamble and loop of `generate_subscriptions` (lines 87-150):
family choice, onboarding-lagged start, term choice, base churn conversion,
initial quantity/price/discount/billing draws, then the renewal loop. -/
def subscriptions_for_customer (cfg : SimConfig) (allFamilies : List String)
    (familyToPid : List (String × ℕ)) (fallbackPid : ℕ) (cust : CustomerRow)
    (lat : Latents) (i : ℕ) (counter : ℕ) (r : Rng) : List SubRow × ℕ × Rng :=
  let seg := cust.segment
  let months : ℤ := cfg.months
  let beh := segment_behavior cfg seg
  let pFam :=
    if seg = "enterprise" ∨ seg = "large" then
      let p := r.next
      (1 + Int.toNat ⌊p.1 * 3⌋, p.2)
    else if seg = "medium" then
      let p := r.next
      (1 + Int.toNat ⌊p.1 * 2⌋, p.2)
    else (1, r)
  let nFam := min pFam.1 allFamilies.length
  let pChosen := sampleIdx (List.range allFamilies.length) nFam pFam.2
  let families := pChosen.1.map (fun j => allFamilies.getD j "")
  let pids0 := families.map (fun f => lookupD familyToPid f 0)
  let pids := if pids0 = [] then [fallbackPid] else pids0
  let pLag := pChosen.2.chooseL beh.onboarding_lag_months 0
  let start_raw := lat.created_month_index i + pLag.1
  let start_idx := max 0 (min start_raw (months - 1))
  let pTerm := pLag.2.chooseL beh.contract_term_months 0
  let term := pTerm.1
  let annual := lookupD cfg.churn_targets_by_segment seg 0.1
  let base_churn := annual_to_per_renewal annual term
  let pQP := pTerm.2.next
  let qp := qty_price seg pQP.1
  let pDisc := pQP.2.next
  let disc := discount_draw seg pDisc.1
  let pBill :=
    if seg = "enterprise" ∨ seg = "large" then
      let p := pDisc.2.next
      if 0.2 < p.1 then ("annual", p.2)
      else
        let q := p.2.next
        (chooseFrom ["monthly", "annual"] "monthly" q.1, q.2)
    else
      let q := pDisc.2.next
      (chooseFrom ["monthly", "annual"] "monthly" q.1, q.2)
  contract_loop months term (i + 1) pids seg (lat.latent_health i)
    (lat.expansion_propensity i) (lat.price_sensitivity i) base_churn
    cfg.months start_idx qp.1 qp.2 disc pBill.1 counter pBill.2

/-- Contract generator: products are grouped to one recurring product per
family (lines 42-47), then each customer's timeline is simulated in customer
order, threading the shared contract counter and random source. -/
def generate_subscriptions (cfg : SimConfig) (products : List ProductRow)
    (customers : List CustomerRow) (lat : Latents) (r : Rng) : List SubRow × Rng :=
  let recurring0 := products.filter (fun p => p.is_recurring)
  let recurring := if recurring0 = [] then products.take 4 else recurring0
  let fams := sortedFamilies (recurring.map (fun p => p.product_family))
  let familyToPid := fams.map (fun f =>
    (f.toLower, ((recurring.find? (fun p => p.product_family == f)).map
      (fun p => p.product_id)).getD 0))
  let allFamilies := familyToPid.map Prod.fst
  let fallbackPid := ((recurring.head?).map (fun p => p.product_id)).getD 0
  let step := fun (acc : List SubRow × ℕ × Rng) (i : ℕ) =>
    let cust := customers.getD i
      ({ customer_id := 0, segment := "", region := "", industry := "",
         crm_health_input := 0, created_idx := 0 } : CustomerRow)
    let out := subscriptions_for_customer cfg allFamilies familyToPid fallbackPid
      cust lat i acc.2.1 acc.2.2
    (acc.1 ++ out.1, out.2)
  let res := (List.range customers.length).foldl step ([], 0, r)
  (res.1, res.2.2)

/-! ### Usage generator

From `gen_usage.py`, `generate_usage`.  The coverage pairs are collected in
insertion order (first covering subscription row, then month); the source keeps
them in a Python `set`, whose iteration order we model by insertion order —
none of the verified properties depends on the order.  The `(end - base).days
// 30` conversion of a cancelled contract's end date is modeled by its month
index (the two agree up to the source's own day-count roundoff, which only
shifts the informational pre-churn usage dip). -/

/-- Row of the persisted `usage_monthly` table. -/
structure UsageRow where
  month_idx : ℕ
  customer_id : ℕ
  feature_key : String
  usage_count : ℤ
  active_users : ℤ

/-- Coverage pairs (lines 30-44): every `(customer_id, month)` such that some
subscription row's `[start, end]` interval contains the month — regardless of
the row's status. -/
def coverage_pairs (months : ℕ) (subs : List SubRow) : List (ℕ × ℕ) :=
  subs.foldl (fun acc row =>
    (List.range months).foldl (fun acc2 (m : ℕ) =>
      if row.start_idx ≤ (m : ℤ) ∧ (m : ℤ) ≤ row.end_idx then
        (if ((row.customer_id, m) : ℕ × ℕ) ∈ acc2 then acc2
         else acc2 ++ [((row.customer_id, m) : ℕ × ℕ)])
      else acc2) acc) []

/-- Detected churn month of a customer (lines 45-47): the largest clamped end
index over that customer's cancelled rows, `none` when it has none. -/
def churn_month (months : ℕ) (subs : List SubRow) (cid : ℕ) : Option ℤ :=
  let l := subs.filter (fun row => row.customer_id == cid && row.status == "cancelled")
  if l.isEmpty then none
  else some (l.foldl (fun acc row => max acc (min ((months : ℤ) - 1) (max 0 row.end_idx))) (-1))

/-- Per-feature perturbation loop (lines 67-76): one Gaussian draw per feature,
clipped into `[0.5, 1.5]` and applied to the shared `usage_count`. -/
def feature_rows (cid m : ℕ) (usage_count active_users : ℤ) :
    List String → Rng → List UsageRow × Rng
  | [], r => ([], r)
  | f :: fs, r =>
    let p := r.next
    let fNoise := 1 + 0.15 * p.1
    let rest := feature_rows cid m usage_count active_users fs p.2
    (({ month_idx := m, customer_id := cid, feature_key := f,
        usage_count := max 0 (pyInt ((usage_count : ℝ) * npClip fNoise 0.5 1.5)),
        active_users := active_users } : UsageRow) :: rest.1, rest.2)

/-- Usage rows of one covered `(customer, month)` pair (lines 50-76). -/
def usage_rows_for_pair (cfg : SimConfig) (nCust : ℕ) (subs : List SubRow)
    (lat : Latents) (cid m : ℕ) (r : Rng) : List UsageRow × Rng :=
  let idx := cid - 1
  let h := if idx < nCust then lat.latent_health idx else 0.7
  let created := if idx < nCust then lat.created_month_index idx else 0
  let monthsSince : ℤ := (m : ℤ) - created
  let onboarding : ℝ := if 3 ≤ monthsSince then 1 else 0.4 + 0.2 * (monthsSince : ℝ)
  let seasonality : ℝ := 1 + 0.1 * Real.sin (2 * Real.pi * (m : ℝ) / 12)
  let churnM := churn_month cfg.months subs cid
  let afterDecline : ℝ × Rng :=
    match churnM with
    | some cm =>
      if cm - 2 ≤ (m : ℤ) ∧ (m : ℤ) ≤ cm then
        let p := r.next
        if p.1 < 0.6 then
          let pU := p.2.uniformIn 0.5 0.9
          (pU.1, pU.2)
        else (1, p.2)
      else (1, r)
    | none => (1, r)
  let pN := afterDecline.2.next
  let noise := npClip (1 + cfg.usage.noise_std * pN.1) 0.3 1.8
  let base := 100 * h * onboarding * seasonality * afterDecline.1 * noise
  let pAU := pN.2.uniformIn 0.3 1.0
  let active_users := max 1 (pyInt (base * pAU.1))
  let pUC := pAU.2.uniformIn 0.5 1.5
  let usage_count := max 0 (pyInt (base * (active_users : ℝ) * pUC.1))
  feature_rows cid m usage_count active_users cfg.usage.features pUC.2

/-- Usage generator: one block of rows per covered pair, in coverage order. -/
def generate_usage (cfg : SimConfig) (customers : List CustomerRow)
    (subs : List SubRow) (lat : Latents) (r : Rng) : List UsageRow × Rng :=
  let pairs := coverage_pairs cfg.months subs
  let step := fun (acc : List UsageRow × Rng) (p : ℕ × ℕ) =>
    let out := usage_rows_for_pair cfg customers.length subs lat p.1 p.2 acc.2
    (acc.1 ++ out.1, out.2)
  pairs.foldl step ([], r)

/-! ### Pipeline generator

From `gen_pipeline.py`, `generate_pipeline`.  Snapshot and expected-close dates
are calendar month indices (`pd.DateOffset(months=k)` is index addition). -/

/-- Fixed funnel order (`STAGE_ORDER`, also the validator's ranking list). -/
def STAGE_ORDER : List String :=
  ["prospecting", "discovery", "proposal", "negotiation", "closed_won", "closed_lost"]

/-- Mutable record of one opportunity. -/
structure Opp where
  opp_id : ℕ
  customer_id : Option ℤ
  segment : String
  opp_type : String
  stage : String
  amount : ℝ
  expected_close_idx : ℤ

/-- Row of the persisted `pipeline_opportunities_snapshot` table. -/
structure PipeRow where
  snapshot_idx : ℕ
  opp_id : ℕ
  customer_id : Option ℤ
  segment : String
  stage : String
  amount : ℝ
  expected_close_idx : ℤ
  opp_type : String

/-- Snapshot row of an opportunity in one month. -/
def snapshot_row (m : ℕ) (o : Opp) : PipeRow :=
  { snapshot_idx := m, opp_id := o.opp_id, customer_id := o.customer_id,
    segment := o.segment, stage := o.stage, amount := o.amount,
    expected_close_idx := o.expected_close_idx, opp_type := o.opp_type }

/-- Segment-dependent amount draw (`amount_for_segment`, lines 38-45). -/
def amount_for_segment (seg : String) (u : ℝ) : ℝ :=
  if seg = "enterprise" then 50000 + 150000 * Real.rpow u 0.6
  else if seg = "large" then 20000 + 80000 * Real.rpow u 0.5
  else if seg = "medium" then 5000 + 25000 * Real.rpow u 0.5
  else 1000 + 8000 * Real.rpow u 0.6

/-- Slippage lookup (`get_slippage`, lines 47-49). -/
def get_slippage (cfg : PipelineCfg) (seg stage : String) : ℤ :=
  lookupD (if seg = "enterprise" ∨ seg = "large" then cfg.slippage_enterprise
    else cfg.slippage_mid_smb) stage 0

/-- Spawn loop of one month (lines 56-69): each new opportunity draws its
expansion coin, its segment, its linked customer when it is an expansion, and
its amount, and starts at `prospecting` with an expected close 3 months out. -/
def spawn_opps (segs : List String) (custIds : List ℤ) (m : ℕ) (k : ℕ)
    (counter : ℕ) (r : Rng) : List Opp × ℕ × Rng :=
  if _hk : k = 0 then ([], counter, r)
  else
    let pE := r.next
    let isExp := pE.1 < 0.4
    let pS := pE.2.chooseL segs ""
    let pC : Option ℤ × Rng :=
      if isExp then
        let q := pS.2.chooseL custIds 0
        (some q.1, q.2)
      else (none, pS.2)
    let pA := pC.2.next
    let o : Opp :=
      { opp_id := counter + 1, customer_id := pC.1, segment := pS.1,
        opp_type := if isExp then "expansion" else "new_biz", stage := "prospecting",
        amount := pyRound2 (amount_for_segment pS.1 pA.1),
        expected_close_idx := (m : ℤ) + 3 }
    let rest := spawn_opps segs custIds m (k - 1) (counter + 1) pA.2
    (o :: rest.1, rest.2)
termination_by k
decreasing_by omega

/-- Monthly transition of one still-open opportunity (lines 88-100), with the
source's exact draw order: the force-close coin is drawn only in the final
window at proposal/negotiation; otherwise (or when it fails) the 52% advance
coin is drawn; failing that, a negotiation-specific direct-loss coin. -/
def step_opp (cfg : PipelineCfg) (fw : Bool) (o : Opp) (r : Rng) : Opp × Rng :=
  let idx : ℤ := if cfg.stage_names.contains o.stage then cfg.stage_names.indexOf o.stage else 0
  let advance : Rng → Opp × Rng := fun r1 =>
    let p := r1.next
    if p.1 < 0.52 then
      (if idx < (cfg.stage_names.length : ℤ) - 2 then
        let ns := cfg.stage_names.getD (idx + 1).toNat o.stage
        ({ o with
            stage := ns,
            expected_close_idx := o.expected_close_idx + get_slippage cfg o.segment ns }, p.2)
      else if idx = (cfg.stage_names.length : ℤ) - 2 then
        let q := p.2.next
        ({ o with stage := if q.1 < 0.65 then "closed_won" else "closed_lost" }, q.2)
      else (o, p.2))
    else if o.stage = "negotiation" then
      let q := p.2.next
      if q.1 < 0.12 then ({ o with stage := "closed_lost" }, q.2) else (o, q.2)
    else (o, p.2)
  if fw ∧ (o.stage = "proposal" ∨ o.stage = "negotiation") then
    let p := r.next
    if p.1 < 0.35 then
      let q := p.2.next
      ({ o with stage := if q.1 < 0.65 then "closed_won" else "closed_lost" }, q.2)
    else advance p.2
  else advance r

/-- Per-opportunity pass of one month (lines 74-114): an already-terminal
opportunity re-emits its snapshot and is dropped from the carried list; an open
one is stepped, emits its (possibly just-updated) snapshot, and is carried
forward only while non-terminal. -/
def process_opps (cfg : PipelineCfg) (fw : Bool) (m : ℕ) :
    List Opp → Rng → List PipeRow × List Opp × Rng
  | [], r => ([], [], r)
  | o :: os, r =>
    if o.stage = "closed_won" ∨ o.stage = "closed_lost" then
      let rest := process_opps cfg fw m os r
      (snapshot_row m o :: rest.1, rest.2.1, rest.2.2)
    else
      let so := step_opp cfg fw o r
      let rest := process_opps cfg fw m os so.2
      (snapshot_row m so.1 :: rest.1,
       (if so.1.stage = "closed_won" ∨ so.1.stage = "closed_lost" then rest.2.1
        else so.1 :: rest.2.1),
       rest.2.2)

/-- One month of the pipeline simulation: jittered spawn count, spawning, then
the per-opportunity pass (the freshly spawned opportunities are processed in
the same month, as the source appends them to `open_opps` before the loop). -/
def pipeline_month (cfg : SimConfig) (segs : List String) (custIds : List ℤ)
    (m : ℕ) (st : List Opp × ℕ × Rng) : List PipeRow × (List Opp × ℕ × Rng) :=
  let nCust := segs.length
  let pJ := st.2.2.next
  let nNew := (max 0 (pyInt ((nCust : ℝ) * cfg.pipeline.opps_per_month_per_100_customers
    / 100 * (0.8 + 0.4 * pJ.1)))).toNat
  let sp := spawn_opps segs custIds m nNew st.2.1 pJ.2
  let opps := st.1 ++ sp.1
  let fw := decide ((cfg.months : ℤ) - 6 ≤ (m : ℤ))
  let pr := process_opps cfg.pipeline fw m opps sp.2.2
  (pr.1, (pr.2.1, sp.2.1, pr.2.2))

/-- Pipeline generator: the month loop, collecting snapshot rows. -/
def generate_pipeline (cfg : SimConfig) (customers : List CustomerRow) (r : Rng) :
    List PipeRow × Rng :=
  let segs := customers.map (fun c => c.segment)
  let custIds := customers.map (fun c => (c.customer_id : ℤ))
  let res := (List.range cfg.months).foldl
    (fun (acc : List PipeRow × (List Opp × ℕ × Rng)) m =>
      let out := pipeline_month cfg segs custIds m acc.2
      (acc.1 ++ out.1, out.2))
    ([], ([], 0, r))
  (res.1, res.2.2.2)

/-! ### Full generation pass

From `simulate.py`, `run` (lines 86-118): one seeded random source is created
from the config's seed and passed explicitly through the five generator calls
in order; the five tables are the run's output. -/

/-- Linear-congruential state update standing in for the PCG64 bit generator:
a fixed pure function of the previous state. -/
def lcgNext (s : ℕ) : ℕ :=
  (6364136223846793005 * s + 1442695040888963407) % 2 ^ 64

/-- Deterministic stream of `np.random.default_rng(seed)`: the `k`-th draw is
the `(k+1)`-fold state update of the seed, scaled into `[0, 1)`. -/
def seedStream (seed : ℕ) (k : ℕ) : ℝ :=
  ((lcgNext^[k + 1] seed : ℕ) : ℝ) / 2 ^ 64

/-- Seeded random source, the model of `np.random.default_rng(seed)`. -/
def default_rng (seed : ℕ) : Rng :=
  ⟨seedStream seed, 0⟩

/-- Output of one full generation pass: the five persisted tables. -/
structure SimOutput where
  products : List ProductRow
  customers : List CustomerRow
  subscription_line_items : List SubRow
  usage_monthly : List UsageRow
  pipeline_opportunities_snapshot : List PipeRow

/-- Full generation pass `run`: seed the source, then call the five generators
in dependency order, threading the source through every call. -/
def run_simulation (seed : ℕ) (cfg : SimConfig) : SimOutput :=
  let r0 := default_rng seed
  let prod := generate_products r0
  let cust := generate_customers cfg prod.2
  let subs := generate_subscriptions cfg prod.1 cust.1 cust.2.1 cust.2.2
  let usage := generate_usage cfg cust.1 subs.1 cust.2.1 subs.2
  let pipe := generate_pipeline cfg cust.1 usage.2
  { products := prod.1, customers := cust.1, subscription_line_items := subs.1,
    usage_monthly := usage.1, pipeline_opportunities_snapshot := pipe.1 }

/-! ## Theorems about the claims -/

/-- Length of the validator's failure accumulation: each check appends its
message list once per message. -/
theorem extend_fails_length (errs : List String) : ∀ (l acc : List String),
    (l.foldl (fun a _ => a ++ errs) acc).length = acc.length + l.length * errs.length := by
  intro l
  induction l with
  | nil => intro acc; simp
  | cons x xs ih =>
    intro acc
    simp only [List.foldl_cons, ih, List.length_append, List.length_cons]
    ring

/-- Accumulated failures vanish exactly when both the accumulator and the
check's message list are empty. -/
theorem extend_fails_eq_nil (acc errs : List String) :
    extend_fails acc errs = [] ↔ acc = [] ∧ errs = [] := by
  rw [← List.length_eq_zero, ← List.length_eq_zero, ← List.length_eq_zero]
  unfold extend_fails
  rw [extend_fails_length]
  constructor
  · intro hz
    have h1 : acc.length = 0 := Nat.eq_zero_of_add_eq_zero_right hz
    have h2 : errs.length * errs.length = 0 := Nat.eq_zero_of_add_eq_zero_left hz
    have h3 : errs.length = 0 := by
      rcases Nat.mul_eq_zero.mp h2 with h | h <;> exact h
    exact ⟨h1, h3⟩
  · rintro ⟨h1, h2⟩
    simp [h1, h2]

/-- C1: the validator's annualized churn rate does not equal the specified
`(churned / at_risk) · (12 / observed_months)`: with a 12-month observed ARR
matrix, 1 churned of 10 at-risk customers, the code yields 1.2 while the
specified formula yields 0.1 — the code multiplies by `12 / max(1,
observed_months / 12)`, i.e. by 12 per observed year, instead of dividing by
the number of observed years. -/
theorem annualized_churn_formula_bug :
    annualized_churn_rate 1 10 12 = 6 / 5 ∧
    spec_annualized_churn_rate 1 10 12 = 1 / 10 ∧
    annualized_churn_rate 1 10 12 ≠ spec_annualized_churn_rate 1 10 12 := by
  refine ⟨?_, ?_, ?_⟩ <;>
    norm_num [annualized_churn_rate, spec_annualized_churn_rate]

/-- C5: the validator's aggregation runs all five checks unconditionally (one
report section per check, independent of every other check's outcome) and
exits 0 exactly when no check reports a failure message, 1 otherwise. -/
theorem run_validation_exit_iff (seg churn conc pipe usage : CheckResult) :
    ((run_validation seg churn conc pipe usage).2).length = 5 ∧
    ((run_validation seg churn conc pipe usage).1 = 0 ↔
      seg.errs = [] ∧ churn.errs = [] ∧ conc.errs = [] ∧
        pipe.errs = [] ∧ usage.errs = []) := by
  constructor
  · rfl
  · unfold run_validation
    simp only []
    by_cases hall : (extend_fails (extend_fails (extend_fails (extend_fails
        (extend_fails [] seg.errs) churn.errs) conc.errs) pipe.errs) usage.errs) = []
    · rw [hall]
      simp only [List.isEmpty_nil, if_true]
      rw [extend_fails_eq_nil, extend_fails_eq_nil, extend_fails_eq_nil,
        extend_fails_eq_nil, extend_fails_eq_nil] at hall
      simp only [true_iff]
      tauto
    · have : (extend_fails (extend_fails (extend_fails (extend_fails
          (extend_fails [] seg.errs) churn.errs) conc.errs) pipe.errs) usage.errs).isEmpty
          = false := by
        cases hl : (extend_fails (extend_fails (extend_fails (extend_fails
            (extend_fails [] seg.errs) churn.errs) conc.errs) pipe.errs) usage.errs) with
        | nil => exact absurd hl hall
        | cons a l => rfl
      rw [this]
      simp only [Bool.false_eq_true, if_false]
      constructor
      · intro h; exact absurd h one_ne_zero
      · rintro ⟨h1, h2, h3, h4, h5⟩
        exact absurd (by rw [h1, h2, h3, h4, h5]; rfl) hall

/-- C3: for every positive term length the per-renewal churn probability of
`_annual_to_per_renewal` equals `1 − (1 − c)^(t/12)`, and the effective
probability of the renewal roll equals `clip(base·(1.2 − h) + noise, 0.02,
0.95)`. -/
theorem annual_to_per_renewal_closed_form (c : ℝ) (t : ℤ) (ht : 0 < t) (h noise : ℝ) :
    annual_to_per_renewal c t = 1 - Real.rpow (1 - c) ((t : ℝ) / 12) ∧
    effective_churn_prob (annual_to_per_renewal c t) h noise =
      min 0.95 (max 0.02 (annual_to_per_renewal c t * (1.2 - h) + noise)) := by
  constructor
  · unfold annual_to_per_renewal
    rw [if_neg (not_le.mpr ht)]
    have htR : (t : ℝ) ≠ 0 := Int.cast_ne_zero.mpr (ne_of_gt ht)
    have : (1 : ℝ) / (12 / (t : ℝ)) = (t : ℝ) / 12 := by
      field_simp
    rw [this]
  · rfl

/-- Witness for C3 at the scenario of the specification: term 12 months and
annual churn target 0.10 give base per-renewal probability 0.10, and the
pre-noise, pre-clip adjusted value at latent health 0.9 is 0.03. -/
theorem annual_to_per_renewal_closed_form_witness :
    (0 : ℤ) < 12 ∧ annual_to_per_renewal (1 / 10) 12 = 1 / 10 ∧
      annual_to_per_renewal (1 / 10) 12 * (1.2 - 0.9) = 0.03 := by
  have hmain := annual_to_per_renewal_closed_form (1 / 10) 12 (by norm_num) 0.9 0
  have hval : annual_to_per_renewal (1 / 10) 12 = 1 / 10 := by
    rw [hmain.1, show (((12 : ℤ) : ℝ) / 12 : ℝ) = 1 by norm_num,
      show Real.rpow (1 - 1 / 10 : ℝ) 1 = (1 - 1 / 10 : ℝ) from Real.rpow_one _]
    norm_num
  exact ⟨by norm_num, hval, by rw [hval]; norm_num⟩

/-- Example configuration (the validation scenario of the specification):
seed 42, 24 months, 1200 customers, the documented segment mix, and the
source's default behavior, pipeline and usage blocks. -/
def example_config : SimConfig :=
  { random_seed := 42, months := 24, n_customers_total := 1200,
    segment_mix := [("enterprise", 0.1), ("large", 0.2), ("medium", 0.3), ("smb", 0.4)],
    churn_targets_by_segment :=
      [("enterprise", 0.05), ("large", 0.08), ("medium", 0.15), ("smb", 0.25)],
    enterprise_large_behavior :=
      { contract_term_months := [12, 24], onboarding_lag_months := [1, 2, 3] },
    mid_smb_behavior :=
      { contract_term_months := [1, 12], onboarding_lag_months := [0, 1] },
    pipeline :=
      { opps_per_month_per_100_customers := 8,
        stage_names := STAGE_ORDER, slippage_enterprise := [], slippage_mid_smb := [] },
    usage := { features := ["feature_a", "feature_b", "feature_c"],
               noise_std := 0.25, contradictory_signal_rate := 0.08 } }

/-- C4: the full generation pass is a pure function of the seed and the
configuration — two runs with identical `(seed, config)` produce identical
output tables for all five datasets. -/
theorem run_simulation_deterministic (seed₁ seed₂ : ℕ) (cfg₁ cfg₂ : SimConfig)
    (hs : seed₁ = seed₂) (hc : cfg₁ = cfg₂) :
    run_simulation seed₁ cfg₁ = run_simulation seed₂ cfg₂ := by
  subst hs
  subst hc
  rfl

/-- Witness for C4 at seed 42 and the example configuration. -/
theorem run_simulation_deterministic_witness :
    run_simulation 42 example_config = run_simulation 42 example_config :=
  run_simulation_deterministic 42 42 example_config example_config rfl rfl

/-- Shape of every row the renewal loop emits: its start index is below the
horizon and its end index is the horizon-clamped end of a term starting
there. -/
theorem contract_loop_row_shape (months term : ℤ) (custId : ℕ) (pids : List ℕ)
    (seg : String) (hh ee pp bb : ℝ) :
    ∀ (fuel : ℕ) (start qty : ℤ) (price disc : ℝ) (billing : String) (counter : ℕ)
      (r : Rng) (row : SubRow),
      row ∈ (contract_loop months term custId pids seg hh ee pp bb
        fuel start qty price disc billing counter r).1 →
      ∃ s : ℤ, s < months ∧ row.start_idx = s ∧ row.end_idx = min (s + term) months - 1 := by
  intro fuel
  induction fuel using Nat.strong_induction_on with
  | _ fuel ih =>
    intro start qty price disc billing counter r row hrow
    rw [contract_loop] at hrow
    by_cases hfu : fuel = 0
    · simp only [dif_pos hfu, List.not_mem_nil] at hrow
    · rw [dif_neg hfu] at hrow
      by_cases hg : months ≤ start
      · simp only [if_pos hg, List.not_mem_nil] at hrow
      · simp only [if_neg hg] at hrow
        by_cases hb : months < start + term
        · simp only [if_pos hb, List.mem_map] at hrow
          obtain ⟨pid, _, heq⟩ := hrow
          refine ⟨start, lt_of_not_le hg, ?_, ?_⟩ <;> rw [← heq]
        · simp only [if_neg hb] at hrow
          split_ifs at hrow
          case pos =>
            rw [List.mem_map] at hrow
            obtain ⟨row2, hrow2, heq⟩ := hrow
            rw [List.mem_map] at hrow2
            obtain ⟨pid, _, heq2⟩ := hrow2
            refine ⟨start, lt_of_not_le hg, ?_, ?_⟩ <;> rw [← heq, ← heq2]
          all_goals
            rw [List.mem_append] at hrow
            rcases hrow with hrow | hrow
            · rw [List.mem_map] at hrow
              obtain ⟨pid, _, heq⟩ := hrow
              refine ⟨start, lt_of_not_le hg, ?_, ?_⟩ <;> rw [← heq]
            · exact ih (fuel - 1) (by omega) _ _ _ _ _ _ _ _ hrow

/-- Element property of the modeled `rng.choice`: on a nonempty list it always
returns an element (the index is clamped into range). -/
theorem chooseFrom_mem {α : Type} (l : List α) (d : α) (u : ℝ) (hl : l ≠ []) :
    chooseFrom l d u ∈ l := by
  unfold chooseFrom
  have hn : 0 < l.length := List.length_pos.mpr hl
  have hidx : chooseIdx l.length u < l.length := by
    unfold chooseIdx
    exact lt_of_le_of_lt (min_le_left _ _) (Nat.sub_lt hn one_pos)
  rw [List.getD_eq_getElem l d hidx]
  exact List.getElem_mem hidx

/-- Decomposition of one customer's subscription generation: it is the renewal
loop run at the drawn term (an element of the segment group's configured term
choices), with `months` fuel, from some initial state. -/
theorem subscriptions_for_customer_shape (cfg : SimConfig) (allFamilies : List String)
    (familyToPid : List (String × ℕ)) (fallbackPid : ℕ) (cust : CustomerRow)
    (lat : Latents) (i counter : ℕ) (r : Rng) :
    ∃ (u : ℝ) (pids : List ℕ) (start qty : ℤ) (price disc : ℝ) (billing : String) (r2 : Rng),
      subscriptions_for_customer cfg allFamilies familyToPid fallbackPid cust lat i counter r =
        contract_loop (cfg.months : ℤ)
          (chooseFrom (segment_behavior cfg cust.segment).contract_term_months 0 u)
          (i + 1) pids cust.segment (lat.latent_health i) (lat.expansion_propensity i)
          (lat.price_sensitivity i)
          (annual_to_per_renewal (lookupD cfg.churn_targets_by_segment cust.segment 0.1)
            (chooseFrom (segment_behavior cfg cust.segment).contract_term_months 0 u))
          cfg.months start qty price disc billing counter r2 :=
  ⟨_, _, _, _, _, _, _, _, rfl⟩

/-- C7 (amended): every contract row a customer's simulation emits has
`end_date ≥ start_date`, and its inclusive term length (months from start to
end) is one of the term choices configured for the customer's segment group,
except when the contract is truncated by the horizon end, in which case the row
ends at the final calendar month. -/
theorem subscription_row_dates_and_term (cfg : SimConfig) (allFamilies : List String)
    (familyToPid : List (String × ℕ)) (fallbackPid : ℕ) (cust : CustomerRow)
    (lat : Latents) (i counter : ℕ) (r : Rng)
    (hne : (segment_behavior cfg cust.segment).contract_term_months ≠ [])
    (hpos : ∀ t ∈ (segment_behavior cfg cust.segment).contract_term_months, 1 ≤ t) :
    ∀ row ∈ (subscriptions_for_customer cfg allFamilies familyToPid fallbackPid
        cust lat i counter r).1,
      row.start_idx ≤ row.end_idx ∧
        (row.end_idx - row.start_idx + 1 ∈
            (segment_behavior cfg cust.segment).contract_term_months ∨
          row.end_idx = (cfg.months : ℤ) - 1) := by
  intro row hrow
  obtain ⟨u, pids, start, qty, price, disc, billing, r2, heq⟩ :=
    subscriptions_for_customer_shape cfg allFamilies familyToPid fallbackPid
      cust lat i counter r
  rw [heq] at hrow
  obtain ⟨s, hs, hstart, hend⟩ :=
    contract_loop_row_shape _ _ _ _ _ _ _ _ _ _ _ _ _ _ _ _ _ _ hrow
  have hterm_mem : chooseFrom (segment_behavior cfg cust.segment).contract_term_months 0 u ∈
      (segment_behavior cfg cust.segment).contract_term_months :=
    chooseFrom_mem _ _ _ hne
  have hterm_pos : 1 ≤ chooseFrom (segment_behavior cfg cust.segment).contract_term_months 0 u :=
    hpos _ hterm_mem
  rw [hstart, hend]
  rcases le_total (s + chooseFrom (segment_behavior cfg cust.segment).contract_term_months 0 u)
      (cfg.months : ℤ) with hle | hle
  · rw [min_eq_left hle]
    constructor
    · omega
    · left
      have : s + chooseFrom (segment_behavior cfg cust.segment).contract_term_months 0 u - 1
          - s + 1 = chooseFrom (segment_behavior cfg cust.segment).contract_term_months 0 u := by
        ring
      rw [this]
      exact hterm_mem
  · rw [min_eq_right hle]
    exact ⟨by omega, Or.inr rfl⟩

/-- Configuration of the concrete horizon-truncation scenario: a 6-month
calendar whose mid/smb segment group configures only 12-month terms. -/
def c7_cfg : SimConfig :=
  { random_seed := 0, months := 6, n_customers_total := 1,
    segment_mix := [], churn_targets_by_segment := [],
    enterprise_large_behavior :=
      { contract_term_months := [12, 24], onboarding_lag_months := [1] },
    mid_smb_behavior := { contract_term_months := [12], onboarding_lag_months := [0] },
    pipeline := { opps_per_month_per_100_customers := 8, stage_names := STAGE_ORDER,
                  slippage_enterprise := [], slippage_mid_smb := [] },
    usage := { features := [], noise_std := 0, contradictory_signal_rate := 0 } }

/-- Customer of the truncation scenario: an smb customer created at month 0. -/
def c7_cust : CustomerRow :=
  { customer_id := 1, segment := "smb", region := "US", industry := "Technology",
    crm_health_input := 5, created_idx := 0 }

/-- Latent traits of the truncation scenario. -/
def c7_lat : Latents :=
  { latent_health := fun _ => 0.5, price_sensitivity := fun _ => 0,
    expansion_propensity := fun _ => 0, onboarding_complexity := fun _ => 0,
    created_month_index := fun _ => 0 }

/-- All-zero random stream, used by the concrete scenarios. -/
def zeroRng : Rng := ⟨fun _ => 0, 0⟩

/-- One-step evaluation of the sampler at count 0. -/
theorem sampleIdx_eval_zero (avail : List ℕ) (r : Rng) : sampleIdx avail 0 r = ([], r) := by
  rw [sampleIdx]
  simp

/-- One-step evaluation of the sampler at count 1. -/
theorem sampleIdx_eval_one (avail : List ℕ) (r : Rng) :
    sampleIdx avail 1 r = ([avail.getD (chooseIdx avail.length r.next.1) 0], r.next.2) := by
  rw [sampleIdx]
  norm_num [sampleIdx_eval_zero]

/-- Evaluation of one horizon-truncated renewal-loop iteration: when the term
overshoots the horizon, the emitted block is returned as is. -/
theorem contract_loop_break {months term : ℤ} {custId : ℕ} {pids : List ℕ} {seg : String}
    {h e p b : ℝ} {fuel : ℕ} {start qty : ℤ} {price disc : ℝ} {billing : String}
    {counter : ℕ} {r : Rng} (hfu : fuel ≠ 0) (hg : ¬months ≤ start)
    (hb : months < start + term) :
    contract_loop months term custId pids seg h e p b fuel start qty price disc
        billing counter r =
      (pids.map (fun pid =>
        ({ contract_id := counter + 1, customer_id := custId, product_id := pid,
           start_idx := start, end_idx := min (start + term) months - 1,
           billing_frequency := billing, quantity := qty, unit_price := price,
           discount_pct := disc, status := "active" } : SubRow)), counter + 1, r) := by
  rw [contract_loop]
  simp only [dif_neg hfu, if_neg hg, if_pos hb]

/-- Evaluation of the truncation scenario: the single emitted contract row
starts at month 0 and ends at month 5. -/
theorem c7_scenario_eval :
    ((subscriptions_for_customer c7_cfg ["a"] [("a", 1)] 1 c7_cust c7_lat 0 0 zeroRng).1).map
      (fun row => (row.start_idx, row.end_idx)) = [((0 : ℤ), (5 : ℤ))] := by
  simp [subscriptions_for_customer, segment_behavior, lookupD, Rng.chooseL, Rng.next,
    Rng.uniformIn, chooseFrom, chooseIdx, zeroRng, c7_cfg, c7_cust, c7_lat, sampleIdx_eval_one]
  rw [contract_loop_break (by norm_num) (by norm_num) (by norm_num)]
  norm_num [min_def]

/-- C7 counterexample: with a 6-month horizon and configured term choices
`[12]` for smb, the single emitted contract row runs from month 0 to month 5 —
its term length (6 inclusive months, 5 as a date difference) matches no
configured choice, refuting the unqualified claim. -/
theorem subscription_term_truncated_counterexample :
    ((subscriptions_for_customer c7_cfg ["a"] [("a", 1)] 1 c7_cust c7_lat 0 0 zeroRng).1).map
        (fun row => (row.start_idx, row.end_idx)) = [((0 : ℤ), (5 : ℤ))] ∧
      (segment_behavior c7_cfg c7_cust.segment).contract_term_months = [12] ∧
      ∀ row ∈ (subscriptions_for_customer c7_cfg ["a"] [("a", 1)] 1 c7_cust c7_lat 0 0 zeroRng).1,
        ∀ t ∈ (segment_behavior c7_cfg c7_cust.segment).contract_term_months,
          row.end_idx - row.start_idx + 1 ≠ t ∧ row.end_idx - row.start_idx ≠ t := by
  have hterms : (segment_behavior c7_cfg c7_cust.segment).contract_term_months = [12] := by
    simp [segment_behavior, c7_cfg, c7_cust]
  refine ⟨c7_scenario_eval, hterms, ?_⟩
  intro row hrow t ht
  have hmap : (row.start_idx, row.end_idx) ∈
      ((subscriptions_for_customer c7_cfg ["a"] [("a", 1)] 1 c7_cust c7_lat 0 0 zeroRng).1).map
        (fun row => (row.start_idx, row.end_idx)) :=
    List.mem_map_of_mem _ hrow
  rw [c7_scenario_eval, List.mem_singleton] at hmap
  rw [hterms, List.mem_singleton] at ht
  have h1 : row.start_idx = 0 := by
    have := congrArg Prod.fst hmap
    simpa using this
  have h2 : row.end_idx = 5 := by
    have := congrArg Prod.snd hmap
    simpa using this
  rw [h1, h2, ht]
  norm_num

/-- Witness for C7 at the truncation scenario's configuration (both term-choice
hypotheses hold for it, and the generator emits a row there). -/
theorem subscription_row_dates_and_term_witness :
    ∃ row ∈ (subscriptions_for_customer c7_cfg ["a"] [("a", 1)] 1 c7_cust c7_lat
        0 0 zeroRng).1,
      row.start_idx ≤ row.end_idx ∧
        (row.end_idx - row.start_idx + 1 ∈
            (segment_behavior c7_cfg c7_cust.segment).contract_term_months ∨
          row.end_idx = (c7_cfg.months : ℤ) - 1) := by
  have hne : (subscriptions_for_customer c7_cfg ["a"] [("a", 1)] 1 c7_cust c7_lat
      0 0 zeroRng).1 ≠ [] := by
    intro h
    have hmap := c7_scenario_eval
    rw [h] at hmap
    simp at hmap
  obtain ⟨row, hrow⟩ := List.exists_mem_of_ne_nil _ hne
  exact ⟨row, hrow,
    subscription_row_dates_and_term c7_cfg ["a"] [("a", 1)] 1 c7_cust c7_lat 0 0 zeroRng
      (by decide) (by decide) row hrow⟩

/-- Bounds of banker's rounding: it lands on the floor or the ceiling. -/
theorem npRound_bounds (x : ℝ) : ⌊x⌋ ≤ npRound x ∧ npRound x ≤ ⌊x⌋ + 1 := by
  unfold npRound
  split_ifs with h1 h2
  · exact ⟨le_refl _, by omega⟩
  · exact ⟨by omega, le_refl _⟩
  · rw [round_eq]
    constructor
    · exact Int.floor_le_floor (by linarith)
    · calc ⌊x + 1 / 2⌋ ≤ ⌊x + 1⌋ := Int.floor_le_floor (by linarith)
        _ = ⌊x⌋ + 1 := by
          rw [show x + 1 = x + (1 : ℤ) by push_cast; ring, Int.floor_add_int]

/-- Monotonicity of banker's rounding. -/
theorem npRound_mono {x y : ℝ} (hxy : x ≤ y) : npRound x ≤ npRound y := by
  rcases lt_or_eq_of_le (Int.floor_le_floor hxy) with hf | hf
  · have h1 := (npRound_bounds x).2
    have h2 := (npRound_bounds y).1
    omega
  · have hfr : Int.fract x ≤ Int.fract y := by
      simp only [Int.fract]
      rw [hf]
      linarith
    by_cases h1 : Int.fract x = 1 / 2
    · by_cases h2 : Int.fract y = 1 / 2
      · have hxy' : x = y := by
          have hx := Int.floor_add_fract x
          have hy := Int.floor_add_fract y
          rw [h1] at hx
          rw [h2] at hy
          rw [hf] at hx
          linarith
        rw [hxy']
      · have hy2 : 1 / 2 < Int.fract y := lt_of_le_of_ne (h1 ▸ hfr) (Ne.symm h2)
        unfold npRound
        rw [if_pos h1, if_neg h2, round_eq]
        have hy3 := Int.floor_add_fract y
        have hround : ⌊y⌋ + 1 ≤ ⌊y + 1 / 2⌋ := by
          apply Int.le_floor.mpr
          push_cast
          linarith
        split_ifs <;> omega
    · by_cases h2 : Int.fract y = 1 / 2
      · have hx2 : Int.fract x < 1 / 2 := lt_of_le_of_ne (h2 ▸ hfr) h1
        unfold npRound
        rw [if_neg h1, if_pos h2, round_eq]
        have hx3 := Int.floor_add_fract x
        have hround : ⌊x + 1 / 2⌋ ≤ ⌊x⌋ := by
          have hlt : ⌊x + 1 / 2⌋ < ⌊x⌋ + 1 := by
            apply Int.floor_lt.mpr
            push_cast
            linarith
          omega
        split_ifs <;> omega
      · unfold npRound
        rw [if_neg h1, if_neg h2, round_eq, round_eq]
        exact Int.floor_le_floor (by linarith)

/-- Evaluation of banker's rounding strictly below the midpoint. -/
theorem npRound_eval_low (z : ℤ) {x : ℝ} (h1 : (z : ℝ) ≤ x) (h2 : x < z + 1 / 2) :
    npRound x = z := by
  have hfloor : ⌊x⌋ = z := Int.floor_eq_iff.mpr ⟨h1, by linarith⟩
  unfold npRound
  rw [if_neg, round_eq]
  · exact Int.floor_eq_iff.mpr ⟨by linarith, by linarith⟩
  · simp only [Int.fract, hfloor]
    intro heq
    have : x = (z : ℝ) + 1 / 2 := by linarith
    rw [this] at h2
    linarith

/-- Evaluation of banker's rounding strictly above the midpoint. -/
theorem npRound_eval_high (z : ℤ) {x : ℝ} (h1 : (z : ℝ) + 1 / 2 < x) (h2 : x < z + 1) :
    npRound x = z + 1 := by
  have hfloor : ⌊x⌋ = z := Int.floor_eq_iff.mpr ⟨by linarith, by linarith⟩
  unfold npRound
  rw [if_neg, round_eq]
  · exact Int.floor_eq_iff.mpr ⟨by push_cast; linarith, by push_cast; linarith⟩
  · simp only [Int.fract, hfloor]
    intro heq
    have : x = (z : ℝ) + 1 / 2 := by linarith
    rw [this] at h1
    linarith

/-- C8 (amended): with `contradictory_signal_rate = 0` the reported CRM health
is never produced by the inversion branch — it always equals the clamped
banker's rounding of the scaled latent health plus Gaussian noise — and the
mapping from latent health to reported health is monotone at equal noise: of
two customers with the same realized noise, the one with higher latent health
never gets a lower `crm_health_input`. -/
theorem crm_no_inversion_and_monotone (cfg : SimConfig) (r : Rng)
    (hrate : cfg.usage.contradictory_signal_rate = 0)
    (hnn : ∀ i : ℕ, 0 ≤ r.stream (r.pos + 8 * cfg.n_customers_total + i)) :
    (∀ i : ℕ, cust_crm cfg r i = cust_crm_base cfg r i) ∧
    (∀ i j : ℕ, cust_latent_health cfg r i ≤ cust_latent_health cfg r j →
      cust_crm_noise cfg r i = cust_crm_noise cfg r j →
      cust_crm cfg r i ≤ cust_crm cfg r j) := by
  have hno : ∀ i : ℕ, cust_crm cfg r i = cust_crm_base cfg r i := by
    intro i
    unfold cust_crm
    rw [if_neg]
    unfold cust_contradicted
    rw [hrate]
    exact not_lt.mpr (hnn i)
  refine ⟨hno, ?_⟩
  intro i j hlat hnoise
  rw [hno i, hno j]
  unfold cust_crm_base npClipInt
  have h9 : cust_latent_health cfg r i * 9 + 1 + cust_crm_noise cfg r i ≤
      cust_latent_health cfg r j * 9 + 1 + cust_crm_noise cfg r j := by
    rw [hnoise]
    linarith
  have hmono := npRound_mono h9
  omega

/-- Configuration of the monotonicity counterexample: two customers, a
1-month calendar, contradiction rate 0. -/
def c8_cfg : SimConfig :=
  { random_seed := 0, months := 1, n_customers_total := 2,
    segment_mix := [], churn_targets_by_segment := [],
    enterprise_large_behavior := ⟨[12], [0]⟩, mid_smb_behavior := ⟨[12], [0]⟩,
    pipeline := ⟨8, STAGE_ORDER, [], []⟩,
    usage := { features := [], noise_std := 0.25, contradictory_signal_rate := 0 } }

/-- Stream of the monotonicity counterexample: latent draws put customer 0 at
latent health 0.9 and customer 1 at 0.5; the standard-normal draws give
customer 0 noise 0.8·(−15/4) = −3 and customer 1 noise 0.8·(11/4) = 2.2; all
other draws (in particular the contradiction coins) are 0. -/
def c8_stream : ℕ → ℝ := fun k =>
  if k = 4 then 14 / 15 else if k = 5 then 2 / 5 else
  if k = 14 then -15 / 4 else if k = 15 then 11 / 4 else 0

/-- Random source of the monotonicity counterexample. -/
def c8_rng : Rng := ⟨c8_stream, 0⟩

/-- C8 counterexample: with contradiction rate 0 (inversion branch inactive),
per-customer Gaussian noise still breaks cross-customer monotonicity — customer
0 has the higher latent health (0.9 > 0.5) but the lower reported CRM health
(6 < 8). -/
theorem crm_monotone_counterexample :
    c8_cfg.usage.contradictory_signal_rate = 0 ∧
    (∀ i : ℕ, 0 ≤ c8_rng.stream (c8_rng.pos + 8 * c8_cfg.n_customers_total + i)) ∧
    cust_latent_health c8_cfg c8_rng 1 < cust_latent_health c8_cfg c8_rng 0 ∧
    cust_crm c8_cfg c8_rng 0 < cust_crm c8_cfg c8_rng 1 := by
  have hnn : ∀ i : ℕ, 0 ≤ c8_rng.stream (c8_rng.pos + 8 * c8_cfg.n_customers_total + i) := by
    intro i
    simp only [c8_rng, c8_cfg, c8_stream]
    rw [if_neg (by omega), if_neg (by omega), if_neg (by omega), if_neg (by omega)]
  have hlat0 : cust_latent_health c8_cfg c8_rng 0 = 0.9 := by
    unfold cust_latent_health
    simp only [c8_rng, c8_cfg, c8_stream]
    norm_num
  have hlat1 : cust_latent_health c8_cfg c8_rng 1 = 0.5 := by
    unfold cust_latent_health
    simp only [c8_rng, c8_cfg, c8_stream]
    norm_num
  have hcon : ∀ i : ℕ, ¬cust_contradicted c8_cfg c8_rng i := fun i => not_lt.mpr (hnn i)
  have hcrm0 : cust_crm c8_cfg c8_rng 0 = 6 := by
    unfold cust_crm
    rw [if_neg (hcon 0)]
    unfold cust_crm_base npClipInt cust_crm_noise
    rw [hlat0]
    simp only [c8_rng, c8_cfg, c8_stream]
    norm_num
    rw [npRound_eval_low 6 (by norm_num) (by norm_num)]
    decide
  have hcrm1 : cust_crm c8_cfg c8_rng 1 = 8 := by
    unfold cust_crm
    rw [if_neg (hcon 1)]
    unfold cust_crm_base npClipInt cust_crm_noise
    rw [hlat1]
    simp only [c8_rng, c8_cfg, c8_stream]
    norm_num
    rw [npRound_eval_high 7 (by norm_num) (by norm_num)]
    decide
  refine ⟨rfl, hnn, ?_, ?_⟩
  · rw [hlat0, hlat1]
    norm_num
  · rw [hcrm0, hcrm1]
    norm_num

/-- Witness for C8's amended theorem at the counterexample's configuration and
stream (whose contradiction-coin draws are all 0). -/
theorem crm_no_inversion_and_monotone_witness :
    (∀ i : ℕ, cust_crm c8_cfg c8_rng i = cust_crm_base c8_cfg c8_rng i) ∧
    (∀ i j : ℕ, cust_latent_health c8_cfg c8_rng i ≤ cust_latent_health c8_cfg c8_rng j →
      cust_crm_noise c8_cfg c8_rng i = cust_crm_noise c8_cfg c8_rng j →
      cust_crm c8_cfg c8_rng i ≤ cust_crm c8_cfg c8_rng j) :=
  crm_no_inversion_and_monotone c8_cfg c8_rng rfl (by
    intro i
    simp only [c8_rng, c8_cfg, c8_stream]
    rw [if_neg (by omega), if_neg (by omega), if_neg (by omega), if_neg (by omega)])

/-- Fields of every row the per-feature loop emits: the pair's customer and
month, the shared `active_users`, and a nonnegative `usage_count`. -/
theorem feature_rows_fields (cid m : ℕ) (uc au : ℤ) :
    ∀ (feats : List String) (r : Rng) (row : UsageRow),
      row ∈ (feature_rows cid m uc au feats r).1 →
      row.customer_id = cid ∧ row.month_idx = m ∧ row.active_users = au ∧
        0 ≤ row.usage_count := by
  intro feats
  induction feats with
  | nil =>
    intro r row hrow
    simp [feature_rows] at hrow
  | cons f fs ih =>
    intro r row hrow
    rw [feature_rows] at hrow
    rw [List.mem_cons] at hrow
    rcases hrow with hrow | hrow
    · subst hrow
      exact ⟨rfl, rfl, rfl, le_max_left _ _⟩
    · exact ih _ _ hrow

/-- Fields of every row one covered pair emits: the pair's customer and month,
at least one active user, and a nonnegative usage count. -/
theorem usage_rows_for_pair_fields (cfg : SimConfig) (nCust : ℕ) (subs : List SubRow)
    (lat : Latents) (cid m : ℕ) (r : Rng) (row : UsageRow)
    (hrow : row ∈ (usage_rows_for_pair cfg nCust subs lat cid m r).1) :
    row.customer_id = cid ∧ row.month_idx = m ∧ 1 ≤ row.active_users ∧
      0 ≤ row.usage_count := by
  unfold usage_rows_for_pair at hrow
  obtain ⟨h1, h2, h3, h4⟩ := feature_rows_fields _ _ _ _ _ _ _ hrow
  exact ⟨h1, h2, h3 ▸ le_max_left _ _, h4⟩

/-- Property propagation through the usage generator's fold over the coverage
pairs. -/
theorem usage_fold_prop (cfg : SimConfig) (nCust : ℕ) (subs : List SubRow)
    (lat : Latents) (P : UsageRow → Prop) :
    ∀ (pairs : List (ℕ × ℕ)) (acc : List UsageRow × Rng),
      (∀ row ∈ acc.1, P row) →
      (∀ p ∈ pairs, ∀ (r : Rng) (row : UsageRow),
        row ∈ (usage_rows_for_pair cfg nCust subs lat p.1 p.2 r).1 → P row) →
      ∀ row ∈ (pairs.foldl (fun (acc : List UsageRow × Rng) (p : ℕ × ℕ) =>
          let out := usage_rows_for_pair cfg nCust subs lat p.1 p.2 acc.2
          (acc.1 ++ out.1, out.2)) acc).1, P row := by
  intro pairs
  induction pairs with
  | nil =>
    intro acc hacc _ row hrow
    exact hacc row hrow
  | cons p ps ih =>
    intro acc hacc hstep row hrow
    rw [List.foldl_cons] at hrow
    refine ih _ ?_ (fun q hq => hstep q (List.mem_cons_of_mem _ hq)) row hrow
    intro row2 hrow2
    rw [List.mem_append] at hrow2
    rcases hrow2 with h | h
    · exact hacc row2 h
    · exact hstep p (List.mem_cons_self _ _) acc.2 row2 h

/-- C10: every row the usage generator emits — for every configuration,
customer population, subscription table, latents and random stream — has
integer fields with `active_users ≥ 1` and `usage_count ≥ 0`. -/
theorem generate_usage_row_bounds (cfg : SimConfig) (customers : List CustomerRow)
    (subs : List SubRow) (lat : Latents) (r : Rng) :
    ∀ row ∈ (generate_usage cfg customers subs lat r).1,
      1 ≤ row.active_users ∧ 0 ≤ row.usage_count := by
  intro row hrow
  unfold generate_usage at hrow
  refine (usage_fold_prop cfg customers.length subs lat
    (fun row => 1 ≤ row.active_users ∧ 0 ≤ row.usage_count)
    (coverage_pairs cfg.months subs) ([], r) (by simp) ?_ row hrow)
  intro p _ r2 row2 hrow2
  obtain ⟨_, _, h3, h4⟩ := usage_rows_for_pair_fields cfg customers.length subs lat
    p.1 p.2 r2 row2 hrow2
  exact ⟨h3, h4⟩

/-- Coverage of a pair collected by `coverage_pairs`: some subscription row of
that customer (of any status) has an interval containing the month. -/
theorem coverage_pairs_covered (months : ℕ) (subs : List SubRow) :
    ∀ p ∈ coverage_pairs months subs,
      ∃ sub ∈ subs, sub.customer_id = p.1 ∧
        sub.start_idx ≤ (p.2 : ℤ) ∧ (p.2 : ℤ) ≤ sub.end_idx := by
  unfold coverage_pairs
  suffices h : ∀ (l : List SubRow) (acc : List (ℕ × ℕ)),
      (∀ sub ∈ l, sub ∈ subs) →
      (∀ p ∈ acc, ∃ sub ∈ subs, sub.customer_id = p.1 ∧
        sub.start_idx ≤ (p.2 : ℤ) ∧ (p.2 : ℤ) ≤ sub.end_idx) →
      ∀ p ∈ l.foldl (fun acc row =>
          (List.range months).foldl (fun acc2 (m : ℕ) =>
            if row.start_idx ≤ (m : ℤ) ∧ (m : ℤ) ≤ row.end_idx then
              (if ((row.customer_id, m) : ℕ × ℕ) ∈ acc2 then acc2
               else acc2 ++ [((row.customer_id, m) : ℕ × ℕ)])
            else acc2) acc) acc,
        ∃ sub ∈ subs, sub.customer_id = p.1 ∧
          sub.start_idx ≤ (p.2 : ℤ) ∧ (p.2 : ℤ) ≤ sub.end_idx by
    exact h subs [] (fun sub hs => hs) (by simp)
  intro l
  induction l with
  | nil =>
    intro acc _ hacc p hp
    exact hacc p hp
  | cons row rows ih =>
    intro acc hl hacc p hp
    rw [List.foldl_cons] at hp
    refine ih _ (fun sub hs => hl sub (List.mem_cons_of_mem _ hs)) ?_ p hp
    have hrow_subs : row ∈ subs := hl row (List.mem_cons_self _ _)
    suffices hinner : ∀ (ms : List ℕ) (acc2 : List (ℕ × ℕ)),
        (∀ q ∈ acc2, ∃ sub ∈ subs, sub.customer_id = q.1 ∧
          sub.start_idx ≤ (q.2 : ℤ) ∧ (q.2 : ℤ) ≤ sub.end_idx) →
        ∀ q ∈ ms.foldl (fun acc2 (m : ℕ) =>
            if row.start_idx ≤ (m : ℤ) ∧ (m : ℤ) ≤ row.end_idx then
              (if ((row.customer_id, m) : ℕ × ℕ) ∈ acc2 then acc2
               else acc2 ++ [((row.customer_id, m) : ℕ × ℕ)])
            else acc2) acc2,
          ∃ sub ∈ subs, sub.customer_id = q.1 ∧
            sub.start_idx ≤ (q.2 : ℤ) ∧ (q.2 : ℤ) ≤ sub.end_idx by
      exact hinner (List.range months) acc hacc
    intro ms
    induction ms with
    | nil =>
      intro acc2 hacc2 q hq
      exact hacc2 q hq
    | cons m msTail ihm =>
      intro acc2 hacc2 q hq
      rw [List.foldl_cons] at hq
      refine ihm _ ?_ q hq
      intro q2 hq2
      by_cases hcov : row.start_idx ≤ (m : ℤ) ∧ (m : ℤ) ≤ row.end_idx
      · rw [if_pos hcov] at hq2
        by_cases hdup : ((row.customer_id, m) : ℕ × ℕ) ∈ acc2
        · rw [if_pos hdup] at hq2
          exact hacc2 q2 hq2
        · rw [if_neg hdup, List.mem_append] at hq2
          rcases hq2 with h | h
          · exact hacc2 q2 h
          · rw [List.mem_singleton] at h
            subst h
            exact ⟨row, hrow_subs, rfl, hcov.1, hcov.2⟩
      · rw [if_neg hcov] at hq2
        exact hacc2 q2 hq2

/-- Pair membership of every emitted usage row: its `(customer, month)` is one
of the collected coverage pairs. -/
theorem generate_usage_pair_mem (cfg : SimConfig) (customers : List CustomerRow)
    (subs : List SubRow) (lat : Latents) (r : Rng) :
    ∀ row ∈ (generate_usage cfg customers subs lat r).1,
      ((row.customer_id, row.month_idx) : ℕ × ℕ) ∈ coverage_pairs cfg.months subs := by
  intro row hrow
  unfold generate_usage at hrow
  refine (usage_fold_prop cfg customers.length subs lat
    (fun row => ((row.customer_id, row.month_idx) : ℕ × ℕ) ∈ coverage_pairs cfg.months subs)
    (coverage_pairs cfg.months subs) ([], r) (by simp) ?_ row hrow)
  intro p hp r2 row2 hrow2
  obtain ⟨h1, h2, _, _⟩ := usage_rows_for_pair_fields cfg customers.length subs lat
    p.1 p.2 r2 row2 hrow2
  rw [h1, h2]
  exact hp

/-- C6 (amended): for every usage row emitted by the usage generator, some
subscription row of the same customer — of any status, active or cancelled —
has a contract interval containing that row's month. -/
theorem usage_rows_covered (cfg : SimConfig) (customers : List CustomerRow)
    (subs : List SubRow) (lat : Latents) (r : Rng) :
    ∀ row ∈ (generate_usage cfg customers subs lat r).1,
      ∃ sub ∈ subs, sub.customer_id = row.customer_id ∧
        sub.start_idx ≤ (row.month_idx : ℤ) ∧ (row.month_idx : ℤ) ≤ sub.end_idx := by
  intro row hrow
  exact coverage_pairs_covered cfg.months subs _
    (generate_usage_pair_mem cfg customers subs lat r row hrow)

/-- Configuration of the usage scenarios: a 1-month calendar with one feature. -/
def c6_cfg : SimConfig :=
  { random_seed := 0, months := 1, n_customers_total := 1,
    segment_mix := [], churn_targets_by_segment := [],
    enterprise_large_behavior := ⟨[12], [0]⟩, mid_smb_behavior := ⟨[12], [0]⟩,
    pipeline := ⟨8, STAGE_ORDER, [], []⟩,
    usage := { features := ["feature_a"], noise_std := 0.25,
               contradictory_signal_rate := 0 } }

/-- Customer of the usage scenarios. -/
def c6_cust : CustomerRow :=
  { customer_id := 1, segment := "smb", region := "US", industry := "Technology",
    crm_health_input := 5, created_idx := 0 }

/-- Latent traits of the usage scenarios. -/
def c6_lat : Latents :=
  { latent_health := fun _ => 0.5, price_sensitivity := fun _ => 0,
    expansion_propensity := fun _ => 0, onboarding_complexity := fun _ => 0,
    created_month_index := fun _ => 0 }

/-- Subscription table of the cancelled-coverage scenario: a single cancelled
contract row covering month 0 — the shape a churned customer's final term has
in generated data (its rows are marked cancelled, line 139-140 of the contract
generator). -/
def c6_subs : List SubRow :=
  [{ contract_id := 1, customer_id := 1, product_id := 1, start_idx := 0, end_idx := 0,
     billing_frequency := "monthly", quantity := 1, unit_price := 1, discount_pct := 0,
     status := "cancelled" }]

/-- C6 counterexample: the usage generator's coverage test (line 43) ignores
the row status, so a month covered only by a cancelled contract row still
produces a usage row — there is no covering subscription row with status
`active` for that `(customer, month)`. -/
theorem usage_active_coverage_counterexample :
    (∃ row ∈ (generate_usage c6_cfg [c6_cust] c6_subs c6_lat zeroRng).1,
      row.customer_id = 1 ∧ row.month_idx = 0) ∧
    ¬(∃ sub ∈ c6_subs, sub.status = "active" ∧ sub.customer_id = 1 ∧
      sub.start_idx ≤ (0 : ℤ) ∧ (0 : ℤ) ≤ sub.end_idx) := by
  constructor
  · have hne : (generate_usage c6_cfg [c6_cust] c6_subs c6_lat zeroRng).1 ≠ [] := by
      intro h
      have hlen := congrArg List.length h
      rw [show (generate_usage c6_cfg [c6_cust] c6_subs c6_lat zeroRng).1.length = 1
        from rfl] at hlen
      simp at hlen
    obtain ⟨row, hrow⟩ := List.exists_mem_of_ne_nil _ hne
    have hpair := generate_usage_pair_mem c6_cfg [c6_cust] c6_subs c6_lat zeroRng row hrow
    rw [show coverage_pairs c6_cfg.months c6_subs = [((1 : ℕ), (0 : ℕ))] from rfl,
      List.mem_singleton] at hpair
    refine ⟨row, hrow, ?_, ?_⟩
    · exact congrArg Prod.fst hpair
    · exact congrArg Prod.snd hpair
  · decide

/-- Witness for the amended C6 at the cancelled-coverage scenario: the emitted
row is covered by a subscription row (the cancelled one). -/
theorem usage_rows_covered_witness :
    ∃ row ∈ (generate_usage c6_cfg [c6_cust] c6_subs c6_lat zeroRng).1,
      ∃ sub ∈ c6_subs, sub.customer_id = row.customer_id ∧
        sub.start_idx ≤ (row.month_idx : ℤ) ∧ (row.month_idx : ℤ) ≤ sub.end_idx := by
  have hne : (generate_usage c6_cfg [c6_cust] c6_subs c6_lat zeroRng).1 ≠ [] := by
    intro h
    have hlen := congrArg List.length h
    rw [show (generate_usage c6_cfg [c6_cust] c6_subs c6_lat zeroRng).1.length = 1
      from rfl] at hlen
    simp at hlen
  obtain ⟨row, hrow⟩ := List.exists_mem_of_ne_nil _ hne
  exact ⟨row, hrow, usage_rows_covered c6_cfg [c6_cust] c6_subs c6_lat zeroRng row hrow⟩

/-- Subscription table of the active-coverage scenario. -/
def c10_subs : List SubRow :=
  [{ contract_id := 1, customer_id := 1, product_id := 1, start_idx := 0, end_idx := 0,
     billing_frequency := "monthly", quantity := 1, unit_price := 1, discount_pct := 0,
     status := "active" }]

/-- Witness for C10 at the active-coverage scenario: the generator emits a row
and the bounds hold for it. -/
theorem generate_usage_row_bounds_witness :
    ∃ row ∈ (generate_usage c6_cfg [c6_cust] c10_subs c6_lat zeroRng).1,
      1 ≤ row.active_users ∧ 0 ≤ row.usage_count := by
  have hne : (generate_usage c6_cfg [c6_cust] c10_subs c6_lat zeroRng).1 ≠ [] := by
    intro h
    have hlen := congrArg List.length h
    rw [show (generate_usage c6_cfg [c6_cust] c10_subs c6_lat zeroRng).1.length = 1
      from rfl] at hlen
    simp at hlen
  obtain ⟨row, hrow⟩ := List.exists_mem_of_ne_nil _ hne
  exact ⟨row, hrow, generate_usage_row_bounds c6_cfg [c6_cust] c10_subs c6_lat zeroRng row hrow⟩

/-- Stage rank of the validator (`validate_simulation.py` lines 196-199):
index in the fixed stage order, −1 for unknown stages.  The validator
lowercases the stage first; that normalization is the identity on every stage
string the generator produces, so it is omitted here. -/
def stage_rank (s : String) : ℤ :=
  if s ∈ STAGE_ORDER then (STAGE_ORDER.indexOf s : ℤ) else -1

/-- Terminal (absorbing) stages of the funnel. -/
def is_terminal (s : String) : Prop :=
  s = "closed_won" ∨ s = "closed_lost"

/-- Rank of the first funnel stage. -/
theorem stage_rank_prospecting : stage_rank "prospecting" = 0 := by decide

/-- Rank of the second funnel stage. -/
theorem stage_rank_discovery : stage_rank "discovery" = 1 := by decide

/-- Rank of the third funnel stage. -/
theorem stage_rank_proposal : stage_rank "proposal" = 2 := by decide

/-- Rank of the fourth funnel stage. -/
theorem stage_rank_negotiation : stage_rank "negotiation" = 3 := by decide

/-- Rank of the winning terminal stage. -/
theorem stage_rank_closed_won : stage_rank "closed_won" = 4 := by decide

/-- Rank of the losing terminal stage. -/
theorem stage_rank_closed_lost : stage_rank "closed_lost" = 5 := by decide

/-- Monotonicity of the per-opportunity monthly transition under the default
stage order: stepping a still-open opportunity never lowers its stage rank,
keeps its id, and lands on an open or terminal stage of the order. -/
theorem step_opp_mono (cfg : PipelineCfg) (hsn : cfg.stage_names = STAGE_ORDER)
    (fw : Bool) (o : Opp) (r : Rng)
    (ho : o.stage = "prospecting" ∨ o.stage = "discovery" ∨ o.stage = "proposal" ∨
      o.stage = "negotiation") :
    stage_rank o.stage ≤ stage_rank (step_opp cfg fw o r).1.stage ∧
    ((step_opp cfg fw o r).1.stage = "prospecting" ∨
      (step_opp cfg fw o r).1.stage = "discovery" ∨
      (step_opp cfg fw o r).1.stage = "proposal" ∨
      (step_opp cfg fw o r).1.stage = "negotiation" ∨
      is_terminal (step_opp cfg fw o r).1.stage) ∧
    (step_opp cfg fw o r).1.opp_id = o.opp_id := by
  rcases ho with h | h | h | h <;>
    (unfold step_opp; rw [hsn]; simp only [h]; split_ifs <;>
      refine ⟨?_, ?_, rfl⟩ <;>
      simp_all [is_terminal, STAGE_ORDER, stage_rank_prospecting, stage_rank_discovery,
        stage_rank_proposal, stage_rank_negotiation, stage_rank_closed_won,
        stage_rank_closed_lost])

/-- Spawn-loop bookkeeping: the counter advances by the spawn count, the new
opportunity ids are exactly the next `k` counter values in order, and every
spawned opportunity starts at `prospecting`. -/
theorem spawn_opps_spec (segs : List String) (custIds : List ℤ) (m : ℕ) :
    ∀ (k counter : ℕ) (r : Rng),
      (spawn_opps segs custIds m k counter r).2.1 = counter + k ∧
      ((spawn_opps segs custIds m k counter r).1.map (fun o => o.opp_id)) =
        List.range' (counter + 1) k ∧
      ∀ o ∈ (spawn_opps segs custIds m k counter r).1, o.stage = "prospecting" := by
  intro k
  induction k using Nat.strong_induction_on with
  | _ k ih =>
    intro counter r
    rw [spawn_opps]
    by_cases hk : k = 0
    · subst hk
      simp
    · rw [dif_neg hk]
      refine ⟨?_, ?_, ?_⟩
      · simp only []
        rw [(ih (k - 1) (by omega) (counter + 1) _).1]
        omega
      · simp only [List.map_cons]
        rw [(ih (k - 1) (by omega) (counter + 1) _).2.1,
          show k = (k - 1) + 1 by omega, List.range'_succ, Nat.add_sub_cancel]
      · intro o2 ho2
        rw [List.mem_cons] at ho2
        rcases ho2 with h | h
        · rw [h]
        · exact (ih (k - 1) (by omega) (counter + 1) _).2.2 o2 h

/-- Per-month pass bookkeeping, for an input list of still-open opportunities:
the emitted snapshot ids are exactly the input ids in order; every snapshot
carries the month and a stage ranked at least its opportunity's; the carried
list's ids form a sublist of the input ids; and every carried opportunity is
still open, descends from an input opportunity without rank loss, and has a
snapshot row of this month with its exact stage. -/
theorem process_opps_spec (cfg : PipelineCfg) (hsn : cfg.stage_names = STAGE_ORDER)
    (fw : Bool) (m : ℕ) :
    ∀ (opps : List Opp) (r : Rng),
      (∀ o ∈ opps, o.stage = "prospecting" ∨ o.stage = "discovery" ∨
        o.stage = "proposal" ∨ o.stage = "negotiation") →
      ((process_opps cfg fw m opps r).1.map (fun row => row.opp_id) =
          opps.map (fun o => o.opp_id)) ∧
      (∀ row ∈ (process_opps cfg fw m opps r).1, row.snapshot_idx = m ∧
        ∃ o ∈ opps, row.opp_id = o.opp_id ∧ stage_rank o.stage ≤ stage_rank row.stage) ∧
      ((process_opps cfg fw m opps r).2.1.map (fun o => o.opp_id)).Sublist
        (opps.map (fun o => o.opp_id)) ∧
      (∀ o2 ∈ (process_opps cfg fw m opps r).2.1,
        (o2.stage = "prospecting" ∨ o2.stage = "discovery" ∨ o2.stage = "proposal" ∨
          o2.stage = "negotiation") ∧
        (∃ o ∈ opps, o2.opp_id = o.opp_id ∧ stage_rank o.stage ≤ stage_rank o2.stage) ∧
        (∃ row ∈ (process_opps cfg fw m opps r).1, row.opp_id = o2.opp_id ∧
          row.stage = o2.stage)) := by
  intro opps
  induction opps with
  | nil =>
    intro r _
    refine ⟨rfl, ?_, ?_, ?_⟩ <;> simp [process_opps]
  | cons o os ih =>
    intro r hall
    have ho := hall o (List.mem_cons_self _ _)
    have hterm : ¬(o.stage = "closed_won" ∨ o.stage = "closed_lost") := by
      rcases ho with h | h | h | h <;> rw [h] <;> decide
    have hstep := step_opp_mono cfg hsn fw o r ho
    obtain ⟨ih1, ih2, ih3, ih4⟩ := ih (step_opp cfg fw o r).2
      (fun o2 ho2 => hall o2 (List.mem_cons_of_mem _ ho2))
    rw [process_opps, if_neg hterm]
    simp only []
    refine ⟨?_, ?_, ?_, ?_⟩
    · simp only [List.map_cons, snapshot_row]
      rw [ih1, hstep.2.2]
    · intro row hrow
      rw [List.mem_cons] at hrow
      rcases hrow with h | h
      · subst h
        exact ⟨rfl, o, List.mem_cons_self _ _, hstep.2.2, hstep.1⟩
      · obtain ⟨hm, o3, ho3, hid, hrank⟩ := ih2 row h
        exact ⟨hm, o3, List.mem_cons_of_mem _ ho3, hid, hrank⟩
    · by_cases hso : (step_opp cfg fw o r).1.stage = "closed_won" ∨
          (step_opp cfg fw o r).1.stage = "closed_lost"
      · rw [if_pos hso]
        exact ih3.cons _
      · rw [if_neg hso]
        simp only [List.map_cons]
        rw [hstep.2.2]
        exact ih3.cons₂ _
    · intro o2 ho2
      by_cases hso : (step_opp cfg fw o r).1.stage = "closed_won" ∨
          (step_opp cfg fw o r).1.stage = "closed_lost"
      · rw [if_pos hso] at ho2
        obtain ⟨hopen, ⟨o3, ho3, hid, hrank⟩, ⟨row, hrowm, hrid, hrst⟩⟩ := ih4 o2 ho2
        exact ⟨hopen, ⟨o3, List.mem_cons_of_mem _ ho3, hid, hrank⟩,
          ⟨row, List.mem_cons_of_mem _ hrowm, hrid, hrst⟩⟩
      · rw [if_neg hso] at ho2
        rw [List.mem_cons] at ho2
        rcases ho2 with h | h
        · subst h
          have hopen : (step_opp cfg fw o r).1.stage = "prospecting" ∨
              (step_opp cfg fw o r).1.stage = "discovery" ∨
              (step_opp cfg fw o r).1.stage = "proposal" ∨
              (step_opp cfg fw o r).1.stage = "negotiation" := by
            rcases hstep.2.1 with h4 | h4 | h4 | h4 | h4
            · exact Or.inl h4
            · exact Or.inr (Or.inl h4)
            · exact Or.inr (Or.inr (Or.inl h4))
            · exact Or.inr (Or.inr (Or.inr h4))
            · exact absurd h4 hso
          exact ⟨hopen, ⟨o, List.mem_cons_self _ _, hstep.2.2, hstep.1⟩,
            ⟨snapshot_row m (step_opp cfg fw o r).1, List.mem_cons_self _ _, rfl, rfl⟩⟩
        · obtain ⟨hopen, ⟨o3, ho3, hid, hrank⟩, ⟨row, hrowm, hrid, hrst⟩⟩ := ih4 o2 h
          exact ⟨hopen, ⟨o3, List.mem_cons_of_mem _ ho3, hid, hrank⟩,
            ⟨row, List.mem_cons_of_mem _ hrowm, hrid, hrst⟩⟩

/-- State of the pipeline simulation after `n` processed months: accumulated
snapshot rows, still-open opportunities, opportunity counter, random source. -/
def pipe_state (cfg : SimConfig) (segs : List String) (custIds : List ℤ) (r : Rng)
    (n : ℕ) : List PipeRow × (List Opp × ℕ × Rng) :=
  (List.range n).foldl
    (fun (acc : List PipeRow × (List Opp × ℕ × Rng)) m =>
      let out := pipeline_month cfg segs custIds m acc.2
      (acc.1 ++ out.1, out.2))
    ([], ([], 0, r))

/-- One-month unrolling of the pipeline state. -/
theorem pipe_state_succ (cfg : SimConfig) (segs : List String) (custIds : List ℤ)
    (r : Rng) (n : ℕ) :
    pipe_state cfg segs custIds r (n + 1) =
      ((pipe_state cfg segs custIds r n).1 ++
        (pipeline_month cfg segs custIds n (pipe_state cfg segs custIds r n).2).1,
       (pipeline_month cfg segs custIds n (pipe_state cfg segs custIds r n).2).2) := by
  unfold pipe_state
  rw [List.range_succ, List.foldl_append, List.foldl_cons, List.foldl_nil]

/-- Whole-run invariant of the pipeline simulation: every carried opportunity
is still open; carried ids are distinct and bounded by the counter; every
recorded row is bounded by the counter and its month; an open opportunity's
stage rank dominates all its recorded rows; a terminal row's opportunity is
never carried; and across the recorded rows, a row followed by a later row of
the same opportunity is non-terminal and never outranks it. -/
def PipeInv (n : ℕ) (st : List PipeRow × (List Opp × ℕ × Rng)) : Prop :=
  (∀ o ∈ st.2.1, o.stage = "prospecting" ∨ o.stage = "discovery" ∨
    o.stage = "proposal" ∨ o.stage = "negotiation") ∧
  (st.2.1.map (fun o => o.opp_id)).Nodup ∧
  (∀ o ∈ st.2.1, o.opp_id ≤ st.2.2.1) ∧
  (∀ row ∈ st.1, row.opp_id ≤ st.2.2.1 ∧ row.snapshot_idx < n) ∧
  (∀ o ∈ st.2.1, ∀ row ∈ st.1, row.opp_id = o.opp_id →
    stage_rank row.stage ≤ stage_rank o.stage) ∧
  (∀ row ∈ st.1, is_terminal row.stage → ∀ o ∈ st.2.1, row.opp_id ≠ o.opp_id) ∧
  (∀ r1 ∈ st.1, ∀ r2 ∈ st.1, r1.opp_id = r2.opp_id →
    r1.snapshot_idx < r2.snapshot_idx →
    ¬is_terminal r1.stage ∧ stage_rank r1.stage ≤ stage_rank r2.stage)

/-- The pipeline invariant holds after every number of processed months. -/
theorem pipe_state_inv (cfg : SimConfig) (segs : List String) (custIds : List ℤ)
    (r : Rng) (hsn : cfg.pipeline.stage_names = STAGE_ORDER) :
    ∀ n, PipeInv n (pipe_state cfg segs custIds r n) := by
  intro n
  induction n with
  | zero =>
    refine ⟨?_, ?_, ?_, ?_, ?_, ?_, ?_⟩ <;> simp [pipe_state, PipeInv]
  | succ n ihn =>
    obtain ⟨i1, i2, i3, i4, i5, i6, i7⟩ := ihn
    rw [pipe_state_succ]
    simp only [pipeline_month]
    obtain ⟨hs1, hs2, hs3⟩ := spawn_opps_spec segs custIds n
      ((max 0 (pyInt ((segs.length : ℝ) *
          cfg.pipeline.opps_per_month_per_100_customers / 100 *
          (0.8 + 0.4 * (pipe_state cfg segs custIds r n).2.2.2.next.1)))).toNat)
      (pipe_state cfg segs custIds r n).2.2.1
      (pipe_state cfg segs custIds r n).2.2.2.next.2
    set k := ((max 0 (pyInt ((segs.length : ℝ) *
        cfg.pipeline.opps_per_month_per_100_customers / 100 *
        (0.8 + 0.4 * (pipe_state cfg segs custIds r n).2.2.2.next.1)))).toNat) with hk
    set sp := spawn_opps segs custIds n k
      (pipe_state cfg segs custIds r n).2.2.1
      (pipe_state cfg segs custIds r n).2.2.2.next.2 with hsp
    set opps2 := (pipe_state cfg segs custIds r n).2.1 ++ sp.1 with hopps2
    have hall : ∀ o ∈ opps2, o.stage = "prospecting" ∨ o.stage = "discovery" ∨
        o.stage = "proposal" ∨ o.stage = "negotiation" := by
      intro o hmem
      rw [hopps2, List.mem_append] at hmem
      rcases hmem with hmem | hmem
      · exact i1 o hmem
      · exact Or.inl (hs3 o hmem)
    obtain ⟨hA, hB, hC, hD⟩ := process_opps_spec cfg.pipeline hsn
      (decide ((cfg.months : ℤ) - 6 ≤ (n : ℤ))) n opps2 sp.2.2 hall
    set pr := process_opps cfg.pipeline (decide ((cfg.months : ℤ) - 6 ≤ (n : ℤ)))
      n opps2 sp.2.2 with hpr
    -- id bookkeeping
    have hopps2_ids : opps2.map (fun o => o.opp_id) =
        ((pipe_state cfg segs custIds r n).2.1.map (fun o => o.opp_id)) ++
          List.range' ((pipe_state cfg segs custIds r n).2.2.1 + 1) k := by
      rw [hopps2, List.map_append, hs2]
    have hopps2_nodup : (opps2.map (fun o => o.opp_id)).Nodup := by
      rw [hopps2_ids]
      rw [List.nodup_append]
      refine ⟨i2, List.nodup_range' _ _, ?_⟩
      intro a ha ha2
      rw [List.mem_map] at ha
      obtain ⟨o, ho, hoa⟩ := ha
      rw [List.mem_range'_1] at ha2
      have := i3 o ho
      omega
    have hopps2_src : ∀ o ∈ opps2, o.opp_id ≤ (pipe_state cfg segs custIds r n).2.2.1 + k := by
      intro o hmem
      rw [hopps2, List.mem_append] at hmem
      rcases hmem with hmem | hmem
      · have := i3 o hmem
        omega
      · have : o.opp_id ∈ sp.1.map (fun o => o.opp_id) := List.mem_map_of_mem _ hmem
        rw [hs2, List.mem_range'_1] at this
        omega
    -- fresh spawned ids exceed every old id
    have hfresh : ∀ o ∈ sp.1, (pipe_state cfg segs custIds r n).2.2.1 < o.opp_id := by
      intro o hmem
      have : o.opp_id ∈ sp.1.map (fun o => o.opp_id) := List.mem_map_of_mem _ hmem
      rw [hs2, List.mem_range'_1] at this
      omega
    -- a new row's id of an old row forces an old open source
    have hrow_src : ∀ row ∈ pr.1, ∃ o ∈ opps2, row.opp_id = o.opp_id ∧
        stage_rank o.stage ≤ stage_rank row.stage := fun row hrow => (hB row hrow).2
    -- new rows have pairwise-injective ids
    have hrows_nodup : (pr.1.map (fun row => row.opp_id)).Nodup := by
      rw [hA]
      exact hopps2_nodup
    have hrows_inj : ∀ r1 ∈ pr.1, ∀ r2 ∈ pr.1, r1.opp_id = r2.opp_id → r1 = r2 :=
      fun r1 h1 r2 h2 hid => List.inj_on_of_nodup_map hrows_nodup h1 h2 hid
    refine ⟨?_, ?_, ?_, ?_, ?_, ?_, ?_⟩
    · intro o hmem
      exact (hD o hmem).1
    · refine List.Nodup.sublist ?_ hopps2_nodup
      exact hC.trans (by rw [hopps2_ids])
    · intro o hmem
      obtain ⟨o3, ho3, hid, _⟩ := (hD o hmem).2.1
      rw [hid]
      rw [hs1]
      exact hopps2_src o3 ho3
    · intro row hrow
      rw [List.mem_append] at hrow
      rcases hrow with hrow | hrow
      · obtain ⟨hb, hm⟩ := i4 row hrow
        rw [hs1]
        exact ⟨by omega, by omega⟩
      · obtain ⟨o3, ho3, hid, _⟩ := hrow_src row hrow
        rw [hs1]
        refine ⟨hid ▸ hopps2_src o3 ho3, ?_⟩
        rw [(hB row hrow).1]
        omega
    · intro o hmem row hrow hid
      rw [List.mem_append] at hrow
      rcases hrow with hrow | hrow
      · -- old row against a carried opportunity
        obtain ⟨_, ⟨o3, ho3, hid3, hrank3⟩, _⟩ := hD o hmem
        rw [hopps2, List.mem_append] at ho3
        rcases ho3 with ho3 | ho3
        · exact le_trans (i5 o3 ho3 row hrow (by rw [hid, hid3])) hrank3
        · exfalso
          have hfr := hfresh o3 ho3
          have := (i4 row hrow).1
          omega
      · -- same-month row against a carried opportunity
        obtain ⟨_, _, row2, hrow2, hid2, hst2⟩ := hD o hmem
        have : row = row2 := hrows_inj row hrow row2 hrow2 (by rw [hid, hid2])
        rw [this, hst2]
    · intro row hrow hterm o hmem hid
      rw [List.mem_append] at hrow
      rcases hrow with hrow | hrow
      · obtain ⟨_, ⟨o3, ho3, hid3, _⟩, _⟩ := hD o hmem
        rw [hopps2, List.mem_append] at ho3
        rcases ho3 with ho3 | ho3
        · exact i6 row hrow hterm o3 ho3 (by rw [hid, hid3])
        · have hfr := hfresh o3 ho3
          have := (i4 row hrow).1
          omega
      · obtain ⟨hopen, _, row2, hrow2, hid2, hst2⟩ := hD o hmem
        have heq : row = row2 := hrows_inj row hrow row2 hrow2 (by rw [hid, hid2])
        rw [heq, hst2] at hterm
        rcases hopen with h | h | h | h <;> rw [h] at hterm <;>
          simp [is_terminal] at hterm
    · intro r1 h1 r2 h2 hid hlt
      rw [List.mem_append] at h1 h2
      rcases h1 with h1 | h1 <;> rcases h2 with h2 | h2
      · exact i7 r1 h1 r2 h2 hid hlt
      · -- r1 old, r2 this month
        obtain ⟨o3, ho3, hid3, hrank3⟩ := hrow_src r2 h2
        rw [hopps2, List.mem_append] at ho3
        rcases ho3 with ho3 | ho3
        · constructor
          · intro hterm
            exact i6 r1 h1 hterm o3 ho3 (by rw [hid, hid3])
          · exact le_trans (i5 o3 ho3 r1 h1 (by rw [hid, hid3])) hrank3
        · exfalso
          have hfr := hfresh o3 ho3
          have := (i4 r1 h1).1
          omega
      · exfalso
        have := (i4 r2 h2).2
        rw [(hB r1 h1).1] at hlt
        omega
      · exfalso
        rw [(hB r1 h1).1, (hB r2 h2).1] at hlt
        omega

/-- C2 divergence: under the default stage order, once the pipeline generator
emits a terminal snapshot for an opportunity, it emits no further snapshot for
it at any later month — a snapshot followed by a later snapshot of the same
opportunity is never terminal (terminal opportunities are dropped from the
carried list, so the terminal re-emit branch never fires). -/
theorem pipeline_no_snapshot_after_terminal (cfg : SimConfig)
    (customers : List CustomerRow) (r : Rng)
    (hsn : cfg.pipeline.stage_names = STAGE_ORDER) :
    ∀ r1 ∈ (generate_pipeline cfg customers r).1,
      ∀ r2 ∈ (generate_pipeline cfg customers r).1,
        r1.opp_id = r2.opp_id → r1.snapshot_idx < r2.snapshot_idx →
        ¬is_terminal r1.stage := by
  intro r1 h1 r2 h2 hid hlt
  have hgen : (generate_pipeline cfg customers r).1 =
      (pipe_state cfg (customers.map (fun c => c.segment))
        (customers.map (fun c => (c.customer_id : ℤ))) r cfg.months).1 := rfl
  rw [hgen] at h1 h2
  exact ((pipe_state_inv cfg (customers.map (fun c => c.segment))
    (customers.map (fun c => (c.customer_id : ℤ))) r hsn cfg.months).2.2.2.2.2.2
    r1 h1 r2 h2 hid hlt).1

/-- C9: under the default stage order, the stage-rank sequence of any
opportunity's snapshots is non-decreasing in month order — no generated
opportunity ever exhibits a stage-rank regression. -/
theorem pipeline_stage_never_regresses (cfg : SimConfig)
    (customers : List CustomerRow) (r : Rng)
    (hsn : cfg.pipeline.stage_names = STAGE_ORDER) :
    ∀ r1 ∈ (generate_pipeline cfg customers r).1,
      ∀ r2 ∈ (generate_pipeline cfg customers r).1,
        r1.opp_id = r2.opp_id → r1.snapshot_idx < r2.snapshot_idx →
        stage_rank r1.stage ≤ stage_rank r2.stage := by
  intro r1 h1 r2 h2 hid hlt
  have hgen : (generate_pipeline cfg customers r).1 =
      (pipe_state cfg (customers.map (fun c => c.segment))
        (customers.map (fun c => (c.customer_id : ℤ))) r cfg.months).1 := rfl
  rw [hgen] at h1 h2
  exact ((pipe_state_inv cfg (customers.map (fun c => c.segment))
    (customers.map (fun c => (c.customer_id : ℤ))) r hsn cfg.months).2.2.2.2.2.2
    r1 h1 r2 h2 hid hlt).2

/-- Configuration of the two-month pipeline scenario: one customer, spawn rate
100 per 100 customers, default stage order. -/
def c9_cfg : SimConfig :=
  { random_seed := 0, months := 2, n_customers_total := 1,
    segment_mix := [], churn_targets_by_segment := [],
    enterprise_large_behavior := ⟨[12], [0]⟩, mid_smb_behavior := ⟨[12], [0]⟩,
    pipeline := { opps_per_month_per_100_customers := 100, stage_names := STAGE_ORDER,
                  slippage_enterprise := [], slippage_mid_smb := [] },
    usage := { features := [], noise_std := 0.25, contradictory_signal_rate := 0 } }

/-- Stream of the two-month pipeline scenario: the month-0 jitter draw spawns
exactly one opportunity (new business), whose advance coins fail both months,
and the month-1 jitter draw spawns none. -/
def c9_stream : ℕ → ℝ := fun k =>
  if k = 0 then 1 / 2 else if k = 1 then 1 / 2 else
  if k = 4 then 9 / 10 else if k = 6 then 9 / 10 else 0

/-- Random source of the two-month pipeline scenario. -/
def c9_rng : Rng := ⟨c9_stream, 0⟩

/-- Opportunity spawned in the two-month pipeline scenario. -/
def c9_opp : Opp :=
  { opp_id := 1, customer_id := none, segment := "smb", opp_type := "new_biz",
    stage := "prospecting", amount := pyRound2 (amount_for_segment ("smb") 0),
    expected_close_idx := 3 }

/-- Spawn loop at count zero. -/
theorem spawn_opps_eval_zero (segs : List String) (custIds : List ℤ) (m counter : ℕ)
    (r : Rng) : spawn_opps segs custIds m 0 counter r = ([], counter, r) := by
  rw [spawn_opps]
  simp

/-- Evaluation of the scenario's month-0 spawn: one new-business smb
opportunity. -/
theorem c9_spawn_eval :
    spawn_opps [("smb")] [(1 : ℤ)] 0 1 0 ⟨c9_stream, 1⟩ = ([c9_opp], 1, ⟨c9_stream, 4⟩) := by
  rw [spawn_opps, dif_neg one_ne_zero]
  norm_num [Rng.next, Rng.chooseL, chooseFrom, chooseIdx, c9_stream,
    spawn_opps_eval_zero, c9_opp]

/-- Evaluation of the scenario's opportunity step: the advance coin 0.9 fails,
so the opportunity stays at prospecting in both months. -/
theorem c9_step_eval (p : ℕ) (hp : c9_stream p = 9 / 10) :
    step_opp
        { opps_per_month_per_100_customers := 100,
          stage_names := STAGE_ORDER,
          slippage_enterprise := [],
          slippage_mid_smb := [] }
        true c9_opp ⟨c9_stream, p⟩ = (c9_opp, ⟨c9_stream, p + 1⟩) := by
  unfold step_opp
  norm_num [Rng.next, hp, c9_cfg, c9_opp, STAGE_ORDER]
  simp

/-- Evaluation of the scenario's monthly pass over the single open
opportunity. -/
theorem c9_process_eval (m p : ℕ) (hp : c9_stream p = 9 / 10) :
    process_opps
        { opps_per_month_per_100_customers := 100,
          stage_names := STAGE_ORDER,
          slippage_enterprise := [],
          slippage_mid_smb := [] }
        true m [c9_opp] ⟨c9_stream, p⟩ =
      ([snapshot_row m c9_opp], [c9_opp], ⟨c9_stream, p + 1⟩) := by
  rw [process_opps]
  rw [if_neg (by decide : ¬(c9_opp.stage = "closed_won" ∨ c9_opp.stage = "closed_lost"))]
  simp only [c9_step_eval p hp, process_opps]
  rw [if_neg (by decide : ¬(c9_opp.stage = "closed_won" ∨ c9_opp.stage = "closed_lost"))]

/-- Customer of the two-month pipeline scenario. -/
def c9_cust : CustomerRow :=
  { customer_id := 1, segment := "smb", region := "US", industry := "Technology",
    crm_health_input := 5, created_idx := 0 }

/-- Evaluation of the two-month pipeline scenario: the single opportunity
yields one prospecting snapshot in each month. -/
theorem c9_list_eval :
    (generate_pipeline c9_cfg [c9_cust] c9_rng).1 =
      [snapshot_row 0 c9_opp, snapshot_row 1 c9_opp] := by
  have hpy1 : pyInt (0.8 + 0.4 * c9_stream 0) = 1 := by
    rw [show (0.8 + 0.4 * c9_stream 0 : ℝ) = 1 by norm_num [c9_stream]]
    unfold pyInt
    rw [if_pos (by norm_num)]
    exact Int.floor_one
  have hpy0 : pyInt (0.8 + 0.4 * c9_stream 5) = 0 := by
    rw [show (0.8 + 0.4 * c9_stream 5 : ℝ) = 4 / 5 by norm_num [c9_stream]]
    unfold pyInt
    rw [if_pos (by norm_num)]
    rw [Int.floor_eq_zero_iff]
    constructor <;> norm_num
  simp only [generate_pipeline, (show List.range 2 = [0, 1] by rfl), List.foldl_cons,
    List.foldl_nil, pipeline_month, Rng.next, c9_cfg, c9_rng, c9_cust]
  simp [hpy1, hpy0, c9_spawn_eval, c9_process_eval 0 4 (by norm_num [c9_stream]),
    c9_process_eval 1 6 (by norm_num [c9_stream]), spawn_opps_eval_zero]

/-- C2 witness: in the two-month scenario the month-0 snapshot of opportunity 1
is followed by its month-1 snapshot, so by the theorem its stage is not
terminal. -/
theorem pipeline_no_snapshot_after_terminal_witness :
    ¬is_terminal (snapshot_row 0 c9_opp).stage :=
  pipeline_no_snapshot_after_terminal c9_cfg [c9_cust] c9_rng rfl
    (snapshot_row 0 c9_opp) (by rw [c9_list_eval]; simp)
    (snapshot_row 1 c9_opp) (by rw [c9_list_eval]; simp)
    rfl (by decide)

/-- C9 witness: in the two-month scenario the month-0 snapshot of opportunity 1
ranks no higher than its month-1 snapshot. -/
theorem pipeline_stage_never_regresses_witness :
    stage_rank (snapshot_row 0 c9_opp).stage ≤ stage_rank (snapshot_row 1 c9_opp).stage :=
  pipeline_stage_never_regresses c9_cfg [c9_cust] c9_rng rfl
    (snapshot_row 0 c9_opp) (by rw [c9_list_eval]; simp)
    (snapshot_row 1 c9_opp) (by rw [c9_list_eval]; simp)
    rfl (by decide)

end

end RevSim
